import Mathlib

/-! Todo-App: the task-list component, base and variant build

Shallow embedding of the two `TodoListApp.jsx` components.

* `TodoApp.Base` follows `src/src/TodoListApp.jsx` (the base build),
* `TodoApp.Variant` follows `src/TodoListApp.jsx` (the variant build).

React state cells are explicit arguments and results of the handlers: a handler
reads the cells of the current render and the values it passes to the setters
are its results.  A JavaScript array whose slots may hold `undefined` is a
`List (Option α)`; a list of well-formed tasks is a `List Task`.  The string
methods of the host (`trim`, `includes`, `toLowerCase`) follow ECMAScript and
the Unicode Character Database.
-/

namespace TodoApp

/-! ## ECMAScript primitives used by the component -/

/-- Code points removed by `String.prototype.trim`: ECMAScript WhiteSpace
(TAB, VT, FF, ZWNBSP and the Unicode space separators) and LineTerminator
(LF, CR, LS, PS). -/
def isJsWhiteSpace (c : Char) : Bool :=
  let n := c.toNat
  n == 0x09 || n == 0x0A || n == 0x0B || n == 0x0C || n == 0x0D || n == 0x20 ||
  n == 0xA0 || n == 0x1680 || (0x2000 ≤ n && n ≤ 0x200A) || n == 0x2028 ||
  n == 0x2029 || n == 0x202F || n == 0x205F || n == 0x3000 || n == 0xFEFF

/-- Characters of `s.trim()`: leading and trailing white space removed. -/
def trimChars (cs : List Char) : List Char :=
  ((cs.dropWhile isJsWhiteSpace).reverse.dropWhile isJsWhiteSpace).reverse

/-- The method `String.prototype.trim`. -/
def jsTrim (s : String) : String := ⟨trimChars s.data⟩

/-- Substring test on character lists: `sub` occurs somewhere in `cs`. -/
def includesChars : List Char → List Char → Bool
  | [], sub => sub.isEmpty
  | c :: cs, sub => sub.isPrefixOf (c :: cs) || includesChars cs sub

/-- The method `String.prototype.includes` with one argument. -/
def jsIncludes (s sub : String) : Bool := includesChars s.data sub.data

/-- The simple lower-case mappings of the Unicode Character Database, version
14.0 (the third mapping field of UnicodeData.txt): a row
`(first, last, stride, lowerOfFirst)` maps every code point
`first + k * stride` up to `last` to `lowerOfFirst + k * stride`. -/
def lowerCaseRows : List (Nat × Nat × Nat × Nat) :=
  [(0x41, 0x5A, 0x1, 0x61), (0xC0, 0xD6, 0x1, 0xE0), (0xD8, 0xDE, 0x1, 0xF8),
   (0x100, 0x12E, 0x2, 0x101), (0x132, 0x136, 0x2, 0x133), (0x139, 0x147, 0x2, 0x13A),
   (0x14A, 0x176, 0x2, 0x14B), (0x178, 0x178, 0x1, 0xFF), (0x179, 0x17D, 0x2, 0x17A),
   (0x181, 0x181, 0x1, 0x253), (0x182, 0x184, 0x2, 0x183), (0x186, 0x186, 0x1, 0x254),
   (0x187, 0x187, 0x1, 0x188), (0x189, 0x18A, 0x1, 0x256), (0x18B, 0x18B, 0x1, 0x18C),
   (0x18E, 0x18E, 0x1, 0x1DD), (0x18F, 0x18F, 0x1, 0x259), (0x190, 0x190, 0x1, 0x25B),
   (0x191, 0x191, 0x1, 0x192), (0x193, 0x193, 0x1, 0x260), (0x194, 0x194, 0x1, 0x263),
   (0x196, 0x196, 0x1, 0x269), (0x197, 0x197, 0x1, 0x268), (0x198, 0x198, 0x1, 0x199),
   (0x19C, 0x19C, 0x1, 0x26F), (0x19D, 0x19D, 0x1, 0x272), (0x19F, 0x19F, 0x1, 0x275),
   (0x1A0, 0x1A4, 0x2, 0x1A1), (0x1A6, 0x1A6, 0x1, 0x280), (0x1A7, 0x1A7, 0x1, 0x1A8),
   (0x1A9, 0x1A9, 0x1, 0x283), (0x1AC, 0x1AC, 0x1, 0x1AD), (0x1AE, 0x1AE, 0x1, 0x288),
   (0x1AF, 0x1AF, 0x1, 0x1B0), (0x1B1, 0x1B2, 0x1, 0x28A), (0x1B3, 0x1B5, 0x2, 0x1B4),
   (0x1B7, 0x1B7, 0x1, 0x292), (0x1B8, 0x1B8, 0x1, 0x1B9), (0x1BC, 0x1BC, 0x1, 0x1BD),
   (0x1C4, 0x1C4, 0x1, 0x1C6), (0x1C5, 0x1C5, 0x1, 0x1C6), (0x1C7, 0x1C7, 0x1, 0x1C9),
   (0x1C8, 0x1C8, 0x1, 0x1C9), (0x1CA, 0x1CA, 0x1, 0x1CC), (0x1CB, 0x1DB, 0x2, 0x1CC),
   (0x1DE, 0x1EE, 0x2, 0x1DF), (0x1F1, 0x1F1, 0x1, 0x1F3), (0x1F2, 0x1F4, 0x2, 0x1F3),
   (0x1F6, 0x1F6, 0x1, 0x195), (0x1F7, 0x1F7, 0x1, 0x1BF), (0x1F8, 0x21E, 0x2, 0x1F9),
   (0x220, 0x220, 0x1, 0x19E), (0x222, 0x232, 0x2, 0x223), (0x23A, 0x23A, 0x1, 0x2C65),
   (0x23B, 0x23B, 0x1, 0x23C), (0x23D, 0x23D, 0x1, 0x19A), (0x23E, 0x23E, 0x1, 0x2C66),
   (0x241, 0x241, 0x1, 0x242), (0x243, 0x243, 0x1, 0x180), (0x244, 0x244, 0x1, 0x289),
   (0x245, 0x245, 0x1, 0x28C), (0x246, 0x24E, 0x2, 0x247), (0x370, 0x372, 0x2, 0x371),
   (0x376, 0x376, 0x1, 0x377), (0x37F, 0x37F, 0x1, 0x3F3), (0x386, 0x386, 0x1, 0x3AC),
   (0x388, 0x38A, 0x1, 0x3AD), (0x38C, 0x38C, 0x1, 0x3CC), (0x38E, 0x38F, 0x1, 0x3CD),
   (0x391, 0x3A1, 0x1, 0x3B1), (0x3A3, 0x3AB, 0x1, 0x3C3), (0x3CF, 0x3CF, 0x1, 0x3D7),
   (0x3D8, 0x3EE, 0x2, 0x3D9), (0x3F4, 0x3F4, 0x1, 0x3B8), (0x3F7, 0x3F7, 0x1, 0x3F8),
   (0x3F9, 0x3F9, 0x1, 0x3F2), (0x3FA, 0x3FA, 0x1, 0x3FB), (0x3FD, 0x3FF, 0x1, 0x37B),
   (0x400, 0x40F, 0x1, 0x450), (0x410, 0x42F, 0x1, 0x430), (0x460, 0x480, 0x2, 0x461),
   (0x48A, 0x4BE, 0x2, 0x48B), (0x4C0, 0x4C0, 0x1, 0x4CF), (0x4C1, 0x4CD, 0x2, 0x4C2),
   (0x4D0, 0x52E, 0x2, 0x4D1), (0x531, 0x556, 0x1, 0x561), (0x10A0, 0x10C5, 0x1, 0x2D00),
   (0x10C7, 0x10C7, 0x1, 0x2D27), (0x10CD, 0x10CD, 0x1, 0x2D2D), (0x13A0, 0x13EF, 0x1, 0xAB70),
   (0x13F0, 0x13F5, 0x1, 0x13F8), (0x1C90, 0x1CBA, 0x1, 0x10D0), (0x1CBD, 0x1CBF, 0x1, 0x10FD),
   (0x1E00, 0x1E94, 0x2, 0x1E01), (0x1E9E, 0x1E9E, 0x1, 0xDF), (0x1EA0, 0x1EFE, 0x2, 0x1EA1),
   (0x1F08, 0x1F0F, 0x1, 0x1F00), (0x1F18, 0x1F1D, 0x1, 0x1F10), (0x1F28, 0x1F2F, 0x1, 0x1F20),
   (0x1F38, 0x1F3F, 0x1, 0x1F30), (0x1F48, 0x1F4D, 0x1, 0x1F40), (0x1F59, 0x1F5F, 0x2, 0x1F51),
   (0x1F68, 0x1F6F, 0x1, 0x1F60), (0x1F88, 0x1F8F, 0x1, 0x1F80), (0x1F98, 0x1F9F, 0x1, 0x1F90),
   (0x1FA8, 0x1FAF, 0x1, 0x1FA0), (0x1FB8, 0x1FB9, 0x1, 0x1FB0), (0x1FBA, 0x1FBB, 0x1, 0x1F70),
   (0x1FBC, 0x1FBC, 0x1, 0x1FB3), (0x1FC8, 0x1FCB, 0x1, 0x1F72), (0x1FCC, 0x1FCC, 0x1, 0x1FC3),
   (0x1FD8, 0x1FD9, 0x1, 0x1FD0), (0x1FDA, 0x1FDB, 0x1, 0x1F76), (0x1FE8, 0x1FE9, 0x1, 0x1FE0),
   (0x1FEA, 0x1FEB, 0x1, 0x1F7A), (0x1FEC, 0x1FEC, 0x1, 0x1FE5), (0x1FF8, 0x1FF9, 0x1, 0x1F78),
   (0x1FFA, 0x1FFB, 0x1, 0x1F7C), (0x1FFC, 0x1FFC, 0x1, 0x1FF3), (0x2126, 0x2126, 0x1, 0x3C9),
   (0x212A, 0x212A, 0x1, 0x6B), (0x212B, 0x212B, 0x1, 0xE5), (0x2132, 0x2132, 0x1, 0x214E),
   (0x2160, 0x216F, 0x1, 0x2170), (0x2183, 0x2183, 0x1, 0x2184), (0x24B6, 0x24CF, 0x1, 0x24D0),
   (0x2C00, 0x2C2F, 0x1, 0x2C30), (0x2C60, 0x2C60, 0x1, 0x2C61), (0x2C62, 0x2C62, 0x1, 0x26B),
   (0x2C63, 0x2C63, 0x1, 0x1D7D), (0x2C64, 0x2C64, 0x1, 0x27D), (0x2C67, 0x2C6B, 0x2, 0x2C68),
   (0x2C6D, 0x2C6D, 0x1, 0x251), (0x2C6E, 0x2C6E, 0x1, 0x271), (0x2C6F, 0x2C6F, 0x1, 0x250),
   (0x2C70, 0x2C70, 0x1, 0x252), (0x2C72, 0x2C72, 0x1, 0x2C73), (0x2C75, 0x2C75, 0x1, 0x2C76),
   (0x2C7E, 0x2C7F, 0x1, 0x23F), (0x2C80, 0x2CE2, 0x2, 0x2C81), (0x2CEB, 0x2CED, 0x2, 0x2CEC),
   (0x2CF2, 0x2CF2, 0x1, 0x2CF3), (0xA640, 0xA66C, 0x2, 0xA641), (0xA680, 0xA69A, 0x2, 0xA681),
   (0xA722, 0xA72E, 0x2, 0xA723), (0xA732, 0xA76E, 0x2, 0xA733), (0xA779, 0xA77B, 0x2, 0xA77A),
   (0xA77D, 0xA77D, 0x1, 0x1D79), (0xA77E, 0xA786, 0x2, 0xA77F), (0xA78B, 0xA78B, 0x1, 0xA78C),
   (0xA78D, 0xA78D, 0x1, 0x265), (0xA790, 0xA792, 0x2, 0xA791), (0xA796, 0xA7A8, 0x2, 0xA797),
   (0xA7AA, 0xA7AA, 0x1, 0x266), (0xA7AB, 0xA7AB, 0x1, 0x25C), (0xA7AC, 0xA7AC, 0x1, 0x261),
   (0xA7AD, 0xA7AD, 0x1, 0x26C), (0xA7AE, 0xA7AE, 0x1, 0x26A), (0xA7B0, 0xA7B0, 0x1, 0x29E),
   (0xA7B1, 0xA7B1, 0x1, 0x287), (0xA7B2, 0xA7B2, 0x1, 0x29D), (0xA7B3, 0xA7B3, 0x1, 0xAB53),
   (0xA7B4, 0xA7C2, 0x2, 0xA7B5), (0xA7C4, 0xA7C4, 0x1, 0xA794), (0xA7C5, 0xA7C5, 0x1, 0x282),
   (0xA7C6, 0xA7C6, 0x1, 0x1D8E), (0xA7C7, 0xA7C9, 0x2, 0xA7C8), (0xA7D0, 0xA7D0, 0x1, 0xA7D1),
   (0xA7D6, 0xA7D8, 0x2, 0xA7D7), (0xA7F5, 0xA7F5, 0x1, 0xA7F6), (0xFF21, 0xFF3A, 0x1, 0xFF41),
   (0x10400, 0x10427, 0x1, 0x10428), (0x104B0, 0x104D3, 0x1, 0x104D8),
   (0x10570, 0x1057A, 0x1, 0x10597), (0x1057C, 0x1058A, 0x1, 0x105A3),
   (0x1058C, 0x10592, 0x1, 0x105B3), (0x10594, 0x10595, 0x1, 0x105BB),
   (0x10C80, 0x10CB2, 0x1, 0x10CC0), (0x118A0, 0x118BF, 0x1, 0x118C0),
   (0x16E40, 0x16E5F, 0x1, 0x16E60), (0x1E900, 0x1E921, 0x1, 0x1E922)]

/-- The code points with the Unicode property Cased (version 14.0), as ranges
`(first, last)`. -/
def casedRanges : List (Nat × Nat) :=
  [(0x41, 0x5A), (0x61, 0x7A), (0xAA, 0xAA), (0xB5, 0xB5), (0xBA, 0xBA), (0xC0, 0xD6),
   (0xD8, 0xF6), (0xF8, 0x1BA), (0x1BC, 0x1BF), (0x1C4, 0x293), (0x295, 0x2B8), (0x2C0, 0x2C1),
   (0x2E0, 0x2E4), (0x345, 0x345), (0x370, 0x373), (0x376, 0x377), (0x37A, 0x37D),
   (0x37F, 0x37F), (0x386, 0x386), (0x388, 0x38A), (0x38C, 0x38C), (0x38E, 0x3A1),
   (0x3A3, 0x3F5), (0x3F7, 0x481), (0x48A, 0x52F), (0x531, 0x556), (0x560, 0x588),
   (0x10A0, 0x10C5), (0x10C7, 0x10C7), (0x10CD, 0x10CD), (0x10D0, 0x10FA), (0x10FD, 0x10FF),
   (0x13A0, 0x13F5), (0x13F8, 0x13FD), (0x1C80, 0x1C88), (0x1C90, 0x1CBA), (0x1CBD, 0x1CBF),
   (0x1D00, 0x1DBF), (0x1E00, 0x1F15), (0x1F18, 0x1F1D), (0x1F20, 0x1F45), (0x1F48, 0x1F4D),
   (0x1F50, 0x1F57), (0x1F59, 0x1F59), (0x1F5B, 0x1F5B), (0x1F5D, 0x1F5D), (0x1F5F, 0x1F7D),
   (0x1F80, 0x1FB4), (0x1FB6, 0x1FBC), (0x1FBE, 0x1FBE), (0x1FC2, 0x1FC4), (0x1FC6, 0x1FCC),
   (0x1FD0, 0x1FD3), (0x1FD6, 0x1FDB), (0x1FE0, 0x1FEC), (0x1FF2, 0x1FF4), (0x1FF6, 0x1FFC),
   (0x2071, 0x2071), (0x207F, 0x207F), (0x2090, 0x209C), (0x2102, 0x2102), (0x2107, 0x2107),
   (0x210A, 0x2113), (0x2115, 0x2115), (0x2119, 0x211D), (0x2124, 0x2124), (0x2126, 0x2126),
   (0x2128, 0x2128), (0x212A, 0x212D), (0x212F, 0x2134), (0x2139, 0x2139), (0x213C, 0x213F),
   (0x2145, 0x2149), (0x214E, 0x214E), (0x2160, 0x217F), (0x2183, 0x2184), (0x24B6, 0x24E9),
   (0x2C00, 0x2CE4), (0x2CEB, 0x2CEE), (0x2CF2, 0x2CF3), (0x2D00, 0x2D25), (0x2D27, 0x2D27),
   (0x2D2D, 0x2D2D), (0xA640, 0xA66D), (0xA680, 0xA69D), (0xA722, 0xA787), (0xA78B, 0xA78E),
   (0xA790, 0xA7CA), (0xA7D0, 0xA7D1), (0xA7D3, 0xA7D3), (0xA7D5, 0xA7D9), (0xA7F5, 0xA7F6),
   (0xA7F8, 0xA7FA), (0xAB30, 0xAB5A), (0xAB5C, 0xAB68), (0xAB70, 0xABBF), (0xFB00, 0xFB06),
   (0xFB13, 0xFB17), (0xFF21, 0xFF3A), (0xFF41, 0xFF5A), (0x10400, 0x1044F), (0x104B0, 0x104D3),
   (0x104D8, 0x104FB), (0x10570, 0x1057A), (0x1057C, 0x1058A), (0x1058C, 0x10592),
   (0x10594, 0x10595), (0x10597, 0x105A1), (0x105A3, 0x105B1), (0x105B3, 0x105B9),
   (0x105BB, 0x105BC), (0x10780, 0x10780), (0x10783, 0x10785), (0x10787, 0x107B0),
   (0x107B2, 0x107BA), (0x10C80, 0x10CB2), (0x10CC0, 0x10CF2), (0x118A0, 0x118DF),
   (0x16E40, 0x16E7F), (0x1D400, 0x1D454), (0x1D456, 0x1D49C), (0x1D49E, 0x1D49F),
   (0x1D4A2, 0x1D4A2), (0x1D4A5, 0x1D4A6), (0x1D4A9, 0x1D4AC), (0x1D4AE, 0x1D4B9),
   (0x1D4BB, 0x1D4BB), (0x1D4BD, 0x1D4C3), (0x1D4C5, 0x1D505), (0x1D507, 0x1D50A),
   (0x1D50D, 0x1D514), (0x1D516, 0x1D51C), (0x1D51E, 0x1D539), (0x1D53B, 0x1D53E),
   (0x1D540, 0x1D544), (0x1D546, 0x1D546), (0x1D54A, 0x1D550), (0x1D552, 0x1D6A5),
   (0x1D6A8, 0x1D6C0), (0x1D6C2, 0x1D6DA), (0x1D6DC, 0x1D6FA), (0x1D6FC, 0x1D714),
   (0x1D716, 0x1D734), (0x1D736, 0x1D74E), (0x1D750, 0x1D76E), (0x1D770, 0x1D788),
   (0x1D78A, 0x1D7A8), (0x1D7AA, 0x1D7C2), (0x1D7C4, 0x1D7CB), (0x1DF00, 0x1DF09),
   (0x1DF0B, 0x1DF1E), (0x1E900, 0x1E943), (0x1F130, 0x1F149), (0x1F150, 0x1F169),
   (0x1F170, 0x1F189)]

/-- The code points with the Unicode property Case_Ignorable (version 14.0), as
ranges `(first, last)`. -/
def caseIgnorableRanges : List (Nat × Nat) :=
  [(0x27, 0x27), (0x2E, 0x2E), (0x3A, 0x3A), (0x5E, 0x5E), (0x60, 0x60), (0xA8, 0xA8),
   (0xAD, 0xAD), (0xAF, 0xAF), (0xB4, 0xB4), (0xB7, 0xB8), (0x2B0, 0x36F), (0x374, 0x375),
   (0x37A, 0x37A), (0x384, 0x385), (0x387, 0x387), (0x483, 0x489), (0x559, 0x559),
   (0x55F, 0x55F), (0x591, 0x5BD), (0x5BF, 0x5BF), (0x5C1, 0x5C2), (0x5C4, 0x5C5),
   (0x5C7, 0x5C7), (0x5F4, 0x5F4), (0x600, 0x605), (0x610, 0x61A), (0x61C, 0x61C),
   (0x640, 0x640), (0x64B, 0x65F), (0x670, 0x670), (0x6D6, 0x6DD), (0x6DF, 0x6E8),
   (0x6EA, 0x6ED), (0x70F, 0x70F), (0x711, 0x711), (0x730, 0x74A), (0x7A6, 0x7B0),
   (0x7EB, 0x7F5), (0x7FA, 0x7FA), (0x7FD, 0x7FD), (0x816, 0x82D), (0x859, 0x85B),
   (0x888, 0x888), (0x890, 0x891), (0x898, 0x89F), (0x8C9, 0x902), (0x93A, 0x93A),
   (0x93C, 0x93C), (0x941, 0x948), (0x94D, 0x94D), (0x951, 0x957), (0x962, 0x963),
   (0x971, 0x971), (0x981, 0x981), (0x9BC, 0x9BC), (0x9C1, 0x9C4), (0x9CD, 0x9CD),
   (0x9E2, 0x9E3), (0x9FE, 0x9FE), (0xA01, 0xA02), (0xA3C, 0xA3C), (0xA41, 0xA42),
   (0xA47, 0xA48), (0xA4B, 0xA4D), (0xA51, 0xA51), (0xA70, 0xA71), (0xA75, 0xA75),
   (0xA81, 0xA82), (0xABC, 0xABC), (0xAC1, 0xAC5), (0xAC7, 0xAC8), (0xACD, 0xACD),
   (0xAE2, 0xAE3), (0xAFA, 0xAFF), (0xB01, 0xB01), (0xB3C, 0xB3C), (0xB3F, 0xB3F),
   (0xB41, 0xB44), (0xB4D, 0xB4D), (0xB55, 0xB56), (0xB62, 0xB63), (0xB82, 0xB82),
   (0xBC0, 0xBC0), (0xBCD, 0xBCD), (0xC00, 0xC00), (0xC04, 0xC04), (0xC3C, 0xC3C),
   (0xC3E, 0xC40), (0xC46, 0xC48), (0xC4A, 0xC4D), (0xC55, 0xC56), (0xC62, 0xC63),
   (0xC81, 0xC81), (0xCBC, 0xCBC), (0xCBF, 0xCBF), (0xCC6, 0xCC6), (0xCCC, 0xCCD),
   (0xCE2, 0xCE3), (0xD00, 0xD01), (0xD3B, 0xD3C), (0xD41, 0xD44), (0xD4D, 0xD4D),
   (0xD62, 0xD63), (0xD81, 0xD81), (0xDCA, 0xDCA), (0xDD2, 0xDD4), (0xDD6, 0xDD6),
   (0xE31, 0xE31), (0xE34, 0xE3A), (0xE46, 0xE4E), (0xEB1, 0xEB1), (0xEB4, 0xEBC),
   (0xEC6, 0xEC6), (0xEC8, 0xECD), (0xF18, 0xF19), (0xF35, 0xF35), (0xF37, 0xF37),
   (0xF39, 0xF39), (0xF71, 0xF7E), (0xF80, 0xF84), (0xF86, 0xF87), (0xF8D, 0xF97),
   (0xF99, 0xFBC), (0xFC6, 0xFC6), (0x102D, 0x1030), (0x1032, 0x1037), (0x1039, 0x103A),
   (0x103D, 0x103E), (0x1058, 0x1059), (0x105E, 0x1060), (0x1071, 0x1074), (0x1082, 0x1082),
   (0x1085, 0x1086), (0x108D, 0x108D), (0x109D, 0x109D), (0x10FC, 0x10FC), (0x135D, 0x135F),
   (0x1712, 0x1714), (0x1732, 0x1733), (0x1752, 0x1753), (0x1772, 0x1773), (0x17B4, 0x17B5),
   (0x17B7, 0x17BD), (0x17C6, 0x17C6), (0x17C9, 0x17D3), (0x17D7, 0x17D7), (0x17DD, 0x17DD),
   (0x180B, 0x180F), (0x1843, 0x1843), (0x1885, 0x1886), (0x18A9, 0x18A9), (0x1920, 0x1922),
   (0x1927, 0x1928), (0x1932, 0x1932), (0x1939, 0x193B), (0x1A17, 0x1A18), (0x1A1B, 0x1A1B),
   (0x1A56, 0x1A56), (0x1A58, 0x1A5E), (0x1A60, 0x1A60), (0x1A62, 0x1A62), (0x1A65, 0x1A6C),
   (0x1A73, 0x1A7C), (0x1A7F, 0x1A7F), (0x1AA7, 0x1AA7), (0x1AB0, 0x1ACE), (0x1B00, 0x1B03),
   (0x1B34, 0x1B34), (0x1B36, 0x1B3A), (0x1B3C, 0x1B3C), (0x1B42, 0x1B42), (0x1B6B, 0x1B73),
   (0x1B80, 0x1B81), (0x1BA2, 0x1BA5), (0x1BA8, 0x1BA9), (0x1BAB, 0x1BAD), (0x1BE6, 0x1BE6),
   (0x1BE8, 0x1BE9), (0x1BED, 0x1BED), (0x1BEF, 0x1BF1), (0x1C2C, 0x1C33), (0x1C36, 0x1C37),
   (0x1C78, 0x1C7D), (0x1CD0, 0x1CD2), (0x1CD4, 0x1CE0), (0x1CE2, 0x1CE8), (0x1CED, 0x1CED),
   (0x1CF4, 0x1CF4), (0x1CF8, 0x1CF9), (0x1D2C, 0x1D6A), (0x1D78, 0x1D78), (0x1D9B, 0x1DFF),
   (0x1FBD, 0x1FBD), (0x1FBF, 0x1FC1), (0x1FCD, 0x1FCF), (0x1FDD, 0x1FDF), (0x1FED, 0x1FEF),
   (0x1FFD, 0x1FFE), (0x200B, 0x200F), (0x2018, 0x2019), (0x2024, 0x2024), (0x2027, 0x2027),
   (0x202A, 0x202E), (0x2060, 0x2064), (0x2066, 0x206F), (0x2071, 0x2071), (0x207F, 0x207F),
   (0x2090, 0x209C), (0x20D0, 0x20F0), (0x2C7C, 0x2C7D), (0x2CEF, 0x2CF1), (0x2D6F, 0x2D6F),
   (0x2D7F, 0x2D7F), (0x2DE0, 0x2DFF), (0x2E2F, 0x2E2F), (0x3005, 0x3005), (0x302A, 0x302D),
   (0x3031, 0x3035), (0x303B, 0x303B), (0x3099, 0x309E), (0x30FC, 0x30FE), (0xA015, 0xA015),
   (0xA4F8, 0xA4FD), (0xA60C, 0xA60C), (0xA66F, 0xA672), (0xA674, 0xA67D), (0xA67F, 0xA67F),
   (0xA69C, 0xA69F), (0xA6F0, 0xA6F1), (0xA700, 0xA721), (0xA770, 0xA770), (0xA788, 0xA78A),
   (0xA7F2, 0xA7F4), (0xA7F8, 0xA7F9), (0xA802, 0xA802), (0xA806, 0xA806), (0xA80B, 0xA80B),
   (0xA825, 0xA826), (0xA82C, 0xA82C), (0xA8C4, 0xA8C5), (0xA8E0, 0xA8F1), (0xA8FF, 0xA8FF),
   (0xA926, 0xA92D), (0xA947, 0xA951), (0xA980, 0xA982), (0xA9B3, 0xA9B3), (0xA9B6, 0xA9B9),
   (0xA9BC, 0xA9BD), (0xA9CF, 0xA9CF), (0xA9E5, 0xA9E6), (0xAA29, 0xAA2E), (0xAA31, 0xAA32),
   (0xAA35, 0xAA36), (0xAA43, 0xAA43), (0xAA4C, 0xAA4C), (0xAA70, 0xAA70), (0xAA7C, 0xAA7C),
   (0xAAB0, 0xAAB0), (0xAAB2, 0xAAB4), (0xAAB7, 0xAAB8), (0xAABE, 0xAABF), (0xAAC1, 0xAAC1),
   (0xAADD, 0xAADD), (0xAAEC, 0xAAED), (0xAAF3, 0xAAF4), (0xAAF6, 0xAAF6), (0xAB5B, 0xAB5F),
   (0xAB69, 0xAB6B), (0xABE5, 0xABE5), (0xABE8, 0xABE8), (0xABED, 0xABED), (0xFB1E, 0xFB1E),
   (0xFBB2, 0xFBC2), (0xFE00, 0xFE0F), (0xFE13, 0xFE13), (0xFE20, 0xFE2F), (0xFE52, 0xFE52),
   (0xFE55, 0xFE55), (0xFEFF, 0xFEFF), (0xFF07, 0xFF07), (0xFF0E, 0xFF0E), (0xFF1A, 0xFF1A),
   (0xFF3E, 0xFF3E), (0xFF40, 0xFF40), (0xFF70, 0xFF70), (0xFF9E, 0xFF9F), (0xFFE3, 0xFFE3),
   (0xFFF9, 0xFFFB), (0x101FD, 0x101FD), (0x102E0, 0x102E0), (0x10376, 0x1037A),
   (0x10780, 0x10785), (0x10787, 0x107B0), (0x107B2, 0x107BA), (0x10A01, 0x10A03),
   (0x10A05, 0x10A06), (0x10A0C, 0x10A0F), (0x10A38, 0x10A3A), (0x10A3F, 0x10A3F),
   (0x10AE5, 0x10AE6), (0x10D24, 0x10D27), (0x10EAB, 0x10EAC), (0x10F46, 0x10F50),
   (0x10F82, 0x10F85), (0x11001, 0x11001), (0x11038, 0x11046), (0x11070, 0x11070),
   (0x11073, 0x11074), (0x1107F, 0x11081), (0x110B3, 0x110B6), (0x110B9, 0x110BA),
   (0x110BD, 0x110BD), (0x110C2, 0x110C2), (0x110CD, 0x110CD), (0x11100, 0x11102),
   (0x11127, 0x1112B), (0x1112D, 0x11134), (0x11173, 0x11173), (0x11180, 0x11181),
   (0x111B6, 0x111BE), (0x111C9, 0x111CC), (0x111CF, 0x111CF), (0x1122F, 0x11231),
   (0x11234, 0x11234), (0x11236, 0x11237), (0x1123E, 0x1123E), (0x112DF, 0x112DF),
   (0x112E3, 0x112EA), (0x11300, 0x11301), (0x1133B, 0x1133C), (0x11340, 0x11340),
   (0x11366, 0x1136C), (0x11370, 0x11374), (0x11438, 0x1143F), (0x11442, 0x11444),
   (0x11446, 0x11446), (0x1145E, 0x1145E), (0x114B3, 0x114B8), (0x114BA, 0x114BA),
   (0x114BF, 0x114C0), (0x114C2, 0x114C3), (0x115B2, 0x115B5), (0x115BC, 0x115BD),
   (0x115BF, 0x115C0), (0x115DC, 0x115DD), (0x11633, 0x1163A), (0x1163D, 0x1163D),
   (0x1163F, 0x11640), (0x116AB, 0x116AB), (0x116AD, 0x116AD), (0x116B0, 0x116B5),
   (0x116B7, 0x116B7), (0x1171D, 0x1171F), (0x11722, 0x11725), (0x11727, 0x1172B),
   (0x1182F, 0x11837), (0x11839, 0x1183A), (0x1193B, 0x1193C), (0x1193E, 0x1193E),
   (0x11943, 0x11943), (0x119D4, 0x119D7), (0x119DA, 0x119DB), (0x119E0, 0x119E0),
   (0x11A01, 0x11A0A), (0x11A33, 0x11A38), (0x11A3B, 0x11A3E), (0x11A47, 0x11A47),
   (0x11A51, 0x11A56), (0x11A59, 0x11A5B), (0x11A8A, 0x11A96), (0x11A98, 0x11A99),
   (0x11C30, 0x11C36), (0x11C38, 0x11C3D), (0x11C3F, 0x11C3F), (0x11C92, 0x11CA7),
   (0x11CAA, 0x11CB0), (0x11CB2, 0x11CB3), (0x11CB5, 0x11CB6), (0x11D31, 0x11D36),
   (0x11D3A, 0x11D3A), (0x11D3C, 0x11D3D), (0x11D3F, 0x11D45), (0x11D47, 0x11D47),
   (0x11D90, 0x11D91), (0x11D95, 0x11D95), (0x11D97, 0x11D97), (0x11EF3, 0x11EF4),
   (0x13430, 0x13438), (0x16AF0, 0x16AF4), (0x16B30, 0x16B36), (0x16B40, 0x16B43),
   (0x16F4F, 0x16F4F), (0x16F8F, 0x16F9F), (0x16FE0, 0x16FE1), (0x16FE3, 0x16FE4),
   (0x1AFF0, 0x1AFF3), (0x1AFF5, 0x1AFFB), (0x1AFFD, 0x1AFFE), (0x1BC9D, 0x1BC9E),
   (0x1BCA0, 0x1BCA3), (0x1CF00, 0x1CF2D), (0x1CF30, 0x1CF46), (0x1D167, 0x1D169),
   (0x1D173, 0x1D182), (0x1D185, 0x1D18B), (0x1D1AA, 0x1D1AD), (0x1D242, 0x1D244),
   (0x1DA00, 0x1DA36), (0x1DA3B, 0x1DA6C), (0x1DA75, 0x1DA75), (0x1DA84, 0x1DA84),
   (0x1DA9B, 0x1DA9F), (0x1DAA1, 0x1DAAF), (0x1E000, 0x1E006), (0x1E008, 0x1E018),
   (0x1E01B, 0x1E021), (0x1E023, 0x1E024), (0x1E026, 0x1E02A), (0x1E130, 0x1E13D),
   (0x1E2AE, 0x1E2AE), (0x1E2EC, 0x1E2EF), (0x1E8D0, 0x1E8D6), (0x1E944, 0x1E94B),
   (0x1F3FB, 0x1F3FF), (0xE0001, 0xE0001), (0xE0020, 0xE007F), (0xE0100, 0xE01EF)]

/-- Simple lower-case mapping of the code point `n` by the given rows; a code
point of no row is its own lower case. -/
def simpleLowerCase (n : Nat) : List (Nat × Nat × Nat × Nat) → Nat
  | [] => n
  | (first, last, stride, lowerOfFirst) :: rows =>
    if first ≤ n && n ≤ last && (n - first) % stride == 0 then lowerOfFirst + (n - first)
    else simpleLowerCase n rows

/-- Membership of the code point `n` in a list of ranges. -/
def inRanges (n : Nat) : List (Nat × Nat) → Bool
  | [] => false
  | (first, last) :: rest => (first ≤ n && n ≤ last) || inRanges n rest

/-- The Unicode property Cased. -/
def isCased (c : Char) : Bool := inRanges c.toNat casedRanges

/-- The Unicode property Case_Ignorable. -/
def isCaseIgnorable (c : Char) : Bool := inRanges c.toNat caseIgnorableRanges

/-- Lower case of one character out of context: the simple mapping, and for
U+0130 the two characters U+0069 U+0307 of SpecialCasing.txt, its only
unconditional lower-case rule. -/
def lowerOfChar (c : Char) : List Char :=
  if c.toNat = 0x130 then [Char.ofNat 0x69, Char.ofNat 0x307]
  else [Char.ofNat (simpleLowerCase c.toNat lowerCaseRows)]

/-- Walking away from a sigma: the case-ignorable characters are skipped, also
those that are cased as well, and the first other character is cased. -/
def casedBehindIgnorables : List Char → Bool
  | [] => false
  | c :: cs => if isCaseIgnorable c then casedBehindIgnorables cs else isCased c

/-- The condition Final_Sigma of SpecialCasing.txt: a cased letter comes before
(`before` lists the preceding characters, the nearest first) and none comes
after, case-ignorable characters in between not counting. -/
def isFinalSigma (before after : List Char) : Bool :=
  casedBehindIgnorables before && !casedBehindIgnorables after

/-- Lower-casing of the characters `cs` that follow `before` (nearest first):
U+03A3 in the Final_Sigma context becomes U+03C2, every other character its
`lowerOfChar`. -/
def lowerChars : List Char → List Char → List Char
  | _, [] => []
  | before, c :: rest =>
    (if c.toNat = 0x3A3 && isFinalSigma before rest then [Char.ofNat 0x3C2]
     else lowerOfChar c) ++ lowerChars (c :: before) rest

/-- The method `String.prototype.toLowerCase`: the Unicode default case
conversion, which is the mappings of UnicodeData.txt and the rules of
SpecialCasing.txt that depend on no language. -/
def toLowerCase (s : String) : String := ⟨lowerChars [] s.data⟩

/-- The callback form `arr.map((x, index) => ...)`, indices counted from `k`. -/
def jsMapFrom {α β : Type} (f : α → Nat → β) : Nat → List α → List β
  | _, [] => []
  | k, x :: xs => f x k :: jsMapFrom f (k + 1) xs

/-- The method `arr.map((x, index) => ...)`. -/
def jsMap {α β : Type} (f : α → Nat → β) (xs : List α) : List β := jsMapFrom f 0 xs

/-- The callback form `arr.filter((x, index) => ...)`, indices counted from `k`. -/
def jsFilterFrom {α : Type} (p : α → Nat → Bool) : Nat → List α → List α
  | _, [] => []
  | k, x :: xs => if p x k then x :: jsFilterFrom p (k + 1) xs else jsFilterFrom p (k + 1) xs

/-- The method `arr.filter((x, index) => ...)`. -/
def jsFilter {α : Type} (p : α → Nat → Bool) (xs : List α) : List α := jsFilterFrom p 0 xs

/-- A JavaScript array: every slot holds a value or `undefined` (`none`). -/
abbrev JsArray (α : Type) := List (Option α)

/-- The array holding exactly the given values. -/
def JsArray.ofList {α : Type} (xs : List α) : JsArray α := xs.map some

/-- The values of an array none of whose slots is `undefined`. -/
def JsArray.values? {α : Type} : JsArray α → Option (List α)
  | [] => some []
  | none :: _ => none
  | some x :: rest => (JsArray.values? rest).map (x :: ·)

/-- Read `a[i]`: `undefined` for a negative index and past the end. -/
def JsArray.get {α : Type} (a : JsArray α) (i : Int) : Option α :=
  if i < 0 then none else (a[i.toNat]?).join

/-- Write `a[i] = v`. A negative index names an ordinary property and leaves
the elements alone; an index past the end grows the array, the new slots in
between reading as `undefined`. -/
def JsArray.set {α : Type} (a : JsArray α) (i : Int) (v : Option α) : JsArray α :=
  if i < 0 then a
  else if i.toNat < a.length then List.set a i.toNat v
  else a ++ List.replicate (i.toNat - a.length) none ++ [v]

/-- Start position of `splice`: a negative `start` counts from the end, and the
result is clamped to `0 .. len`. -/
def spliceStart (len : Nat) (start : Int) : Nat :=
  if start < 0 then (len + start).toNat else min start.toNat len

/-- The method `a.splice(start, deleteCount, ...items)`: the removed elements
and the array afterwards. -/
def JsArray.splice {α : Type} (a : JsArray α) (start : Int) (deleteCount : Nat)
    (items : List (Option α)) : JsArray α × JsArray α :=
  let actualStart := spliceStart a.length start
  let actualDeleteCount := min deleteCount (a.length - actualStart)
  ((a.drop actualStart).take actualDeleteCount,
   a.take actualStart ++ items ++ a.drop (actualStart + actualDeleteCount))

/-! ## Base build (`src/src/TodoListApp.jsx`) -/

namespace Base

/-- A task of the base build: `{ id, text, completed }`. -/
structure Task where
  id : Int
  text : String
  completed : Bool
deriving DecidableEq, Repr

/-- Handler `addTask`: the new values of the cells `tasks` and `newTask`;
`now` is the reading of `Date.now()`. -/
def addTask (now : Int) (tasks : List Task) (newTask : String) : List Task × String :=
  let text := jsTrim newTask
  if text = "" then (tasks, newTask)
  else if tasks.any (fun task => task.text == text) then (tasks, newTask)
  else (tasks ++ [{ id := now, text := text, completed := false }], "")

/-- Handler `deleteTask(i)`: the new values of `tasks` and `lastDeleted`. -/
def deleteTask (tasks : List Task) (i : Nat) : List Task × Option Task :=
  (jsFilter (fun _ index => index != i) tasks, tasks[i]?)

/-- Handler `undoDelete`: the new values of `tasks` and `lastDeleted`. -/
def undoDelete (tasks : List Task) (lastDeleted : Option Task) : List Task × Option Task :=
  match lastDeleted with
  | some d => (tasks ++ [d], none)
  | none => (tasks, lastDeleted)

/-- Handler `toggleCompleted(i)`. -/
def toggleCompleted (tasks : List Task) (i : Nat) : List Task :=
  jsMap (fun task index => if index = i then { task with completed := !task.completed } else task)
    tasks

/-- Handler `moveUp(index)`: swap the slots `index` and `index - 1` of a copy. -/
def moveUp (tasks : List Task) (index : Int) : JsArray Task :=
  if index > 0 then
    let moved := JsArray.ofList tasks
    let lower := moved.get (index - 1)
    let upper := moved.get index
    (moved.set index lower).set (index - 1) upper
  else JsArray.ofList tasks

/-- Handler `moveDown(index)`: swap the slots `index` and `index + 1` of a copy. -/
def moveDown (tasks : List Task) (index : Int) : JsArray Task :=
  if index < (tasks.length : Int) - 1 then
    let moved := JsArray.ofList tasks
    let upper := moved.get (index + 1)
    let lower := moved.get index
    (moved.set index upper).set (index + 1) lower
  else JsArray.ofList tasks

/-- Handler `clearCompleted`. -/
def clearCompleted (tasks : List Task) : List Task :=
  tasks.filter (fun task => !task.completed)

/-- Handler `editTask(index, text)`. -/
def editTask (tasks : List Task) (index : Nat) (text : String) : List Task :=
  jsMap (fun task i => if i = index then { task with text := text } else task) tasks

/-- The displayed list `filteredTasks`. -/
def filteredTasks (tasks : List Task) (filter : String) : List Task :=
  tasks.filter (fun task =>
    if filter = "active" then !task.completed
    else if filter = "completed" then task.completed
    else true)

/-- The counter `remainingCount`. -/
def remainingCount (tasks : List Task) : Nat :=
  (tasks.filter (fun task => !task.completed)).length

/-- The cells of the component that the task handlers read and write. The input
cell `newTask` is not kept: an `add` carries the text typed before the button
is pressed. -/
structure State where
  tasks : List Task
  lastDeleted : Option Task

/-- The state of a first visit: no stored tasks, nothing deleted. -/
def State.init : State := { tasks := [], lastDeleted := none }

/-- The user actions of the base build; `now` is the clock reading `Date.now()`
taken by `addTask`, an index is the row the button belongs to. -/
inductive Op where
  | add (input : String) (now : Int)
  | delete (i : Nat)
  | undoDelete
  | toggle (i : Nat)
  | edit (i : Nat) (text : String)
  | moveUp (i : Nat)
  | moveDown (i : Nat)
  | clearCompleted

/-- One action. `none`: the handler left an `undefined` slot in `tasks`, which
is no list of tasks any more. -/
def step (s : State) : Op → Option State
  | .add input now => some { s with tasks := (addTask now s.tasks input).1 }
  | .delete i => some { tasks := (deleteTask s.tasks i).1, lastDeleted := (deleteTask s.tasks i).2 }
  | .undoDelete =>
    some { tasks := (undoDelete s.tasks s.lastDeleted).1,
           lastDeleted := (undoDelete s.tasks s.lastDeleted).2 }
  | .toggle i => some { s with tasks := toggleCompleted s.tasks i }
  | .edit i text => some { s with tasks := editTask s.tasks i text }
  | .moveUp i => (moveUp s.tasks i).values?.map (fun ts => { s with tasks := ts })
  | .moveDown i => (moveDown s.tasks i).values?.map (fun ts => { s with tasks := ts })
  | .clearCompleted => some { s with tasks := clearCompleted s.tasks }

/-- A sequence of actions, from left to right. -/
def run (s : State) : List Op → Option State
  | [] => some s
  | op :: ops => (step s op).bind (fun s' => run s' ops)

/-- The clock reading an action supplies to `addTask`, if it is an `add`. -/
def Op.clock? : Op → Option Int
  | .add _ now => some now
  | _ => none

/-- The clock readings supplied to `addTask` along a sequence of actions. -/
def clockReadings (ops : List Op) : List Int := ops.filterMap Op.clock?

end Base

/-! ## Variant build (`src/TodoListApp.jsx`) -/

namespace Variant

/-- Values of the priority selector: `high`, `medium`, `low`. -/
inductive Priority where
  | high
  | medium
  | low
deriving DecidableEq, Repr

/-- Values of the category selector: `general`, `work`, `personal`. -/
inductive Category where
  | general
  | work
  | personal
deriving DecidableEq, Repr

/-- A task of the variant build. The `id` is the number computed by
`Date.now() + Math.random()`; a finite double is a rational number, and so is
its value here. `dueDate` is `null` (`none`) or a date string. -/
structure Task where
  id : ℚ
  text : String
  completed : Bool
  priority : Priority
  category : Category
  recurrence : String
  dueDate : Option String
deriving DecidableEq, Repr

/-- Handler `addTask`: the new values of the cells `tasks` and `newTask`;
`freshId` is the value of `Date.now() + Math.random()`, `priority` and
`category` are the selector cells. -/
def addTask (freshId : ℚ) (priority : Priority) (category : Category) (tasks : List Task)
    (newTask : String) : List Task × String :=
  let text := jsTrim newTask
  if text = "" || tasks.any (fun t => t.text == text) then (tasks, newTask)
  else
    (tasks ++ [{ id := freshId, text := text, completed := false, priority := priority,
                 category := category, recurrence := "none", dueDate := none }], "")

/-- Handler `deleteTask(i)`: the new values of `tasks` and `deletedStack`; the
slot `tasks[i]` is pushed as it reads, `undefined` past the end. -/
def deleteTask (tasks : List Task) (deletedStack : JsArray Task) (i : Nat) :
    List Task × JsArray Task :=
  (jsFilter (fun _ idx => idx != i) tasks, deletedStack ++ [tasks[i]?])

/-- Handler `undoDelete`: the new value of `tasks` and the stack after `pop()`. -/
def undoDelete (tasks : List Task) (deletedStack : JsArray Task) :
    JsArray Task × JsArray Task :=
  if deletedStack.length = 0 then (JsArray.ofList tasks, deletedStack)
  else
    let last := deletedStack.getLast?.join
    (JsArray.ofList tasks ++ [last], deletedStack.dropLast)

/-- Handler `toggleCompleted(i)`; `none` is the `TypeError` raised when
`updated[i]` is `undefined`. `freshId` is the value of
`Date.now() + Math.random()` for the clone of a recurring task. -/
def toggleCompleted (freshId : ℚ) (tasks : List Task) (i : Nat) : Option (List Task) :=
  let updated := jsMap (fun t idx => if idx = i then { t with completed := !t.completed } else t)
    tasks
  match updated[i]? with
  | none => none
  | some task =>
    if task.completed && task.recurrence != "none" then
      some (updated ++ [{ task with id := freshId, completed := false }])
    else some updated

/-- Handler `editTask(index, text)`. -/
def editTask (tasks : List Task) (index : Nat) (text : String) : List Task :=
  jsMap (fun t i => if i = index then { t with text := text } else t) tasks

/-- Handler `clearCompleted`. -/
def clearCompleted (tasks : List Task) : List Task :=
  tasks.filter (fun t => !t.completed)

/-- Handler `onDragEnd(result)`: `source` is `result.source.index`,
`destination` is `result.destination` (`none` for `null`) with its `index`. -/
def onDragEnd (tasks : List Task) (source : Int) (destination : Option Int) : JsArray Task :=
  match destination with
  | none => JsArray.ofList tasks
  | some dest =>
    let reordered := JsArray.ofList tasks
    let cut := reordered.splice source 1 []
    let moved := cut.1.head?.join
    (cut.2.splice dest 0 [moved]).2

/-- The list `filteredTasks`: the status filter, then the search filter. -/
def filteredTasks (tasks : List Task) (filter search : String) : List Task :=
  (tasks.filter (fun t =>
      if filter = "active" then !t.completed
      else if filter = "completed" then t.completed
      else true)).filter
    (fun t => jsIncludes (toLowerCase t.text) (toLowerCase search))

/-- The table `{ high: 1, medium: 2, low: 3 }`. -/
def priorityRank : Priority → ℚ
  | .high => 1
  | .medium => 2
  | .low => 3

/-- A boolean used as a number: `false` is 0 and `true` is 1. -/
def boolToNumber (b : Bool) : ℚ := if b then 1 else 0

/-- The comparator passed to `sort`. -/
def sortCompare (sortBy : String) (a b : Task) : ℚ :=
  if sortBy = "priority" then priorityRank a.priority - priorityRank b.priority
  else if sortBy = "completed" then boolToNumber a.completed - boolToNumber b.completed
  else a.id - b.id

/-- Insert `x` before the first element it does not compare greater than. -/
def insertSorted {α : Type} (cmp : α → α → ℚ) (x : α) : List α → List α
  | [] => [x]
  | y :: ys => if cmp x y ≤ 0 then x :: y :: ys else y :: insertSorted cmp x ys

/-- The method `Array.prototype.sort(cmp)`, which is stable: for a consistent
comparator the result is the one of this stable insertion sort. -/
def jsSort {α : Type} (cmp : α → α → ℚ) : List α → List α
  | [] => []
  | x :: xs => insertSorted cmp x (jsSort cmp xs)

/-- The displayed list `sortedTasks`. -/
def sortedTasks (tasks : List Task) (filter search sortBy : String) : List Task :=
  jsSort (sortCompare sortBy) (filteredTasks tasks filter search)

/-- The counter `remainingCount`. -/
def remainingCount (tasks : List Task) : Nat :=
  (tasks.filter (fun t => !t.completed)).length

/-- The cells of the component that the task handlers read and write. -/
structure State where
  tasks : List Task
  deletedStack : JsArray Task

/-- The state of a first visit: no stored tasks, nothing deleted. -/
def State.init : State := { tasks := [], deletedStack := [] }

/-- The user actions of the variant build; `freshId` is the number
`Date.now() + Math.random()` computed by the handler, `priority` and `category`
are the selector values at the time of the `add`. -/
inductive Op where
  | add (input : String) (freshId : ℚ) (priority : Priority) (category : Category)
  | delete (i : Nat)
  | undoDelete
  | toggle (i : Nat) (freshId : ℚ)
  | edit (i : Nat) (text : String)
  | reorder (source : Nat) (destination : Option Nat)
  | clearCompleted

/-- One action. `none`: the handler raised a `TypeError` or left an `undefined`
slot in `tasks`, which is no list of tasks any more. -/
def step (s : State) : Op → Option State
  | .add input freshId priority category =>
    some { s with tasks := (addTask freshId priority category s.tasks input).1 }
  | .delete i =>
    some { tasks := (deleteTask s.tasks s.deletedStack i).1,
           deletedStack := (deleteTask s.tasks s.deletedStack i).2 }
  | .undoDelete =>
    (undoDelete s.tasks s.deletedStack).1.values?.map
      (fun ts => { tasks := ts, deletedStack := (undoDelete s.tasks s.deletedStack).2 })
  | .toggle i freshId => (toggleCompleted freshId s.tasks i).map (fun ts => { s with tasks := ts })
  | .edit i text => some { s with tasks := editTask s.tasks i text }
  | .reorder source destination =>
    (onDragEnd s.tasks source (destination.map Int.ofNat)).values?.map
      (fun ts => { s with tasks := ts })
  | .clearCompleted => some { s with tasks := clearCompleted s.tasks }

/-- A sequence of actions, from left to right. -/
def run (s : State) : List Op → Option State
  | [] => some s
  | op :: ops => (step s op).bind (fun s' => run s' ops)

/-- The id an action supplies to `addTask`, if it is an `add`. -/
def Op.addId? : Op → Option ℚ
  | .add _ freshId _ _ => some freshId
  | _ => none

/-- The ids computed by `addTask` along a sequence of actions. -/
def addIds (ops : List Op) : List ℚ := ops.filterMap Op.addId?

end Variant


/-! ## Lemmas on the primitives -/

set_option maxRecDepth 100000

theorem trimChars_eq_nil_of_whiteSpace (cs : List Char)
    (h : ∀ c ∈ cs, isJsWhiteSpace c = true) : trimChars cs = [] := by
  have h1 : cs.dropWhile isJsWhiteSpace = [] := List.dropWhile_eq_nil_iff.mpr h
  simp [trimChars, h1]

theorem jsTrim_eq_empty_of_whiteSpace (s : String)
    (h : ∀ c ∈ s.data, isJsWhiteSpace c = true) : jsTrim s = "" := by
  simp [jsTrim, trimChars_eq_nil_of_whiteSpace s.data h]

theorem jsFilterFrom_ne_of_lt {α : Type} (i : Nat) :
    ∀ (xs : List α) (k : Nat), i < k → jsFilterFrom (fun _ idx => idx != i) k xs = xs := by
  intro xs
  induction xs with
  | nil => intro k _; rfl
  | cons x xs ih =>
    intro k hk
    have hne : (k != i) = true := by simp; omega
    simp only [jsFilterFrom, hne, if_true]
    rw [ih (k + 1) (by omega)]

theorem jsFilterFrom_ne_eq_eraseIdx {α : Type} (i : Nat) :
    ∀ (xs : List α) (k : Nat), k ≤ i →
      jsFilterFrom (fun _ idx => idx != i) k xs = xs.eraseIdx (i - k) := by
  intro xs
  induction xs with
  | nil => intro k _; rfl
  | cons x xs ih =>
    intro k hk
    by_cases hki : k = i
    · subst hki
      simp [jsFilterFrom, jsFilterFrom_ne_of_lt k xs (k + 1) (by omega)]
    · have hne : (k != i) = true := by simp; exact hki
      simp only [jsFilterFrom, hne, if_true]
      rw [ih (k + 1) (by omega)]
      have : i - k = (i - (k + 1)) + 1 := by omega
      rw [this, List.eraseIdx_cons_succ]

theorem jsFilter_ne_eq_eraseIdx {α : Type} (i : Nat) (xs : List α) :
    jsFilter (fun _ idx => idx != i) xs = xs.eraseIdx i := by
  simpa [jsFilter] using jsFilterFrom_ne_eq_eraseIdx i xs 0 (Nat.zero_le i)

theorem length_jsMapFrom {α β : Type} (f : α → Nat → β) :
    ∀ (xs : List α) (k : Nat), (jsMapFrom f k xs).length = xs.length := by
  intro xs
  induction xs with
  | nil => intro k; rfl
  | cons x xs ih => intro k; simp [jsMapFrom, ih]

theorem getElem?_jsMapFrom {α β : Type} (f : α → Nat → β) :
    ∀ (xs : List α) (k j : Nat),
      (jsMapFrom f k xs)[j]? = (xs[j]?).map (fun x => f x (k + j)) := by
  intro xs
  induction xs with
  | nil => intro k j; simp [jsMapFrom]
  | cons x xs ih =>
    intro k j
    cases j with
    | zero => simp [jsMapFrom]
    | succ j =>
      simp only [jsMapFrom, List.getElem?_cons_succ, ih]
      congr 1
      funext y
      congr 1
      omega

theorem map_jsMapFrom {α β γ : Type} (f : α → Nat → β) (g : β → γ) (g0 : α → γ)
    (h : ∀ x n, g (f x n) = g0 x) :
    ∀ (xs : List α) (k : Nat), (jsMapFrom f k xs).map g = xs.map g0 := by
  intro xs
  induction xs with
  | nil => intro k; rfl
  | cons x xs ih => intro k; simp [jsMapFrom, ih, h]

theorem values?_ofList {α : Type} (xs : List α) :
    JsArray.values? (JsArray.ofList xs) = some xs := by
  induction xs with
  | nil => rfl
  | cons x xs ih =>
    simp only [JsArray.ofList, List.map_cons, JsArray.values?] at ih ⊢
    simp [ih]

theorem eq_ofList_of_values? {α : Type} :
    ∀ (a : JsArray α) (xs : List α), JsArray.values? a = some xs → a = JsArray.ofList xs := by
  intro a
  induction a with
  | nil => intro xs h; simp [JsArray.values?] at h; subst h; rfl
  | cons o rest ih =>
    intro xs h
    cases o with
    | none => simp [JsArray.values?] at h
    | some x =>
      simp only [JsArray.values?, Option.map_eq_some'] at h
      obtain ⟨ys, hys, rfl⟩ := h
      have hrest := ih ys hys
      simp only [JsArray.ofList] at hrest ⊢
      rw [hrest, List.map_cons]

theorem jsMapFrom_toggle_twice {α : Type} (g : α → α) (hg : ∀ x, g (g x) = x) (i : Nat) :
    ∀ (xs : List α) (k : Nat),
      jsMapFrom (fun x idx => if idx = i then g x else x) k
        (jsMapFrom (fun x idx => if idx = i then g x else x) k xs) = xs := by
  intro xs
  induction xs with
  | nil => intro k; rfl
  | cons x xs ih =>
    intro k
    simp only [jsMapFrom, ih]
    by_cases hk : k = i <;> simp [hk, hg]

/-! ## Adding a task -/

/-- C1: in both builds `addTask` leaves the task list unchanged when the input
is empty or consists of white space only, and when the trimmed input equals the
text of a task already in the list. -/
theorem addTask_invalid_input_unchanged (input : String) :
    (∀ (now : Int) (tasks : List Base.Task),
        ((∀ c ∈ input.data, isJsWhiteSpace c = true) ∨ ∃ t ∈ tasks, t.text = jsTrim input) →
        (Base.addTask now tasks input).1 = tasks) ∧
    (∀ (freshId : ℚ) (priority : Variant.Priority) (category : Variant.Category)
        (tasks : List Variant.Task),
        ((∀ c ∈ input.data, isJsWhiteSpace c = true) ∨ ∃ t ∈ tasks, t.text = jsTrim input) →
        (Variant.addTask freshId priority category tasks input).1 = tasks) := by
  constructor
  · intro now tasks h
    unfold Base.addTask
    rcases h with h | ⟨t, ht, htext⟩
    · simp [jsTrim_eq_empty_of_whiteSpace input h]
    · by_cases he : jsTrim input = ""
      · simp [he]
      · have hany : (tasks.any fun task => task.text == jsTrim input) = true :=
          List.any_eq_true.mpr ⟨t, ht, by simp [htext]⟩
        simp [he, hany]
  · intro freshId priority category tasks h
    unfold Variant.addTask
    rcases h with h | ⟨t, ht, htext⟩
    · simp [jsTrim_eq_empty_of_whiteSpace input h]
    · have hany : (tasks.any fun task => task.text == jsTrim input) = true :=
        List.any_eq_true.mpr ⟨t, ht, by simp [htext]⟩
      simp [hany]

/-- Instances of C1: a blank input and a duplicate text, in both builds. -/
theorem addTask_invalid_input_unchanged_witness :
    (Base.addTask 7 [⟨1, "Buy milk", false⟩] " \t ").1 = [⟨1, "Buy milk", false⟩] ∧
    (Base.addTask 7 [⟨1, "Buy milk", false⟩] " Buy milk ").1 = [⟨1, "Buy milk", false⟩] ∧
    (Variant.addTask 7 .high .work [⟨1, "Buy milk", false, .low, .general, "none", none⟩]
        "").1 = [⟨1, "Buy milk", false, .low, .general, "none", none⟩] ∧
    (Variant.addTask 7 .high .work [⟨1, "Buy milk", false, .low, .general, "none", none⟩]
        "Buy milk\n").1 = [⟨1, "Buy milk", false, .low, .general, "none", none⟩] :=
  ⟨(addTask_invalid_input_unchanged " \t ").1 7 _ (Or.inl (by decide)),
   (addTask_invalid_input_unchanged " Buy milk ").1 7 _
     (Or.inr ⟨⟨1, "Buy milk", false⟩, by simp, by decide⟩),
   (addTask_invalid_input_unchanged "").2 7 .high .work _ (Or.inl (by decide)),
   (addTask_invalid_input_unchanged "Buy milk\n").2 7 .high .work _
     (Or.inr ⟨⟨1, "Buy milk", false, .low, .general, "none", none⟩, by simp, by decide⟩)⟩

/-- C2: in both builds a valid add (the trimmed input is not empty and differs
from the text of every task in the list) yields the previous list, unchanged
and in the same order, followed by one new task that carries the trimmed text
and `completed = false`; the list is one longer than before. -/
theorem addTask_valid_appends (input : String) (hne : jsTrim input ≠ "") :
    (∀ (now : Int) (tasks : List Base.Task), (∀ t ∈ tasks, t.text ≠ jsTrim input) →
        (Base.addTask now tasks input).1 =
            tasks ++ [{ id := now, text := jsTrim input, completed := false }] ∧
        (Base.addTask now tasks input).1.length = tasks.length + 1) ∧
    (∀ (freshId : ℚ) (priority : Variant.Priority) (category : Variant.Category)
        (tasks : List Variant.Task), (∀ t ∈ tasks, t.text ≠ jsTrim input) →
        (Variant.addTask freshId priority category tasks input).1 =
            tasks ++ [{ id := freshId, text := jsTrim input, completed := false,
                        priority := priority, category := category, recurrence := "none",
                        dueDate := none }] ∧
        (Variant.addTask freshId priority category tasks input).1.length = tasks.length + 1) := by
  constructor
  · intro now tasks h
    have hany : (tasks.any fun task => task.text == jsTrim input) = false := by
      rw [List.any_eq_false]
      intro t ht
      simpa using h t ht
    simp [Base.addTask, hne, hany]
  · intro freshId priority category tasks h
    have hany : (tasks.any fun task => task.text == jsTrim input) = false := by
      rw [List.any_eq_false]
      intro t ht
      simpa using h t ht
    simp [Variant.addTask, hne, hany]

/-- Instance of C2: adding `" Pay rent "` to a list holding `"Buy milk"`. -/
theorem addTask_valid_appends_witness :
    jsTrim " Pay rent " ≠ "" ∧
    (Base.addTask 9 [⟨1, "Buy milk", true⟩] " Pay rent ").1 =
      [⟨1, "Buy milk", true⟩, ⟨9, "Pay rent", false⟩] ∧
    (Variant.addTask 9 .high .work [⟨1, "Buy milk", true, .low, .general, "none", none⟩]
        " Pay rent ").1 =
      [⟨1, "Buy milk", true, .low, .general, "none", none⟩,
       ⟨9, "Pay rent", false, .high, .work, "none", none⟩] :=
  ⟨by decide,
   ((addTask_valid_appends " Pay rent " (by decide)).1 9 [⟨1, "Buy milk", true⟩]
      (by decide)).1,
   ((addTask_valid_appends " Pay rent " (by decide)).2 9 .high .work
      [⟨1, "Buy milk", true, .low, .general, "none", none⟩] (by decide)).1⟩

/-! ## Deleting and restoring -/

/-- C3: in both builds, for a valid index `i` (the slot `tasks[i]` holds the
task `t`), `deleteTask(i)` followed at once by `undoDelete` gives the other
tasks in their previous order followed by `t`: the list has its original
length and holds `t`, now at the end. The base build empties its slot, the
variant build is back at the stack it had before. -/
theorem delete_then_undoDelete_reappends (i : Nat) :
    (∀ (tasks : List Base.Task) (t : Base.Task), tasks[i]? = some t →
        (Base.undoDelete (Base.deleteTask tasks i).1 (Base.deleteTask tasks i).2).1 =
            tasks.eraseIdx i ++ [t] ∧
        (Base.undoDelete (Base.deleteTask tasks i).1 (Base.deleteTask tasks i).2).1.length =
            tasks.length ∧
        t ∈ (Base.undoDelete (Base.deleteTask tasks i).1 (Base.deleteTask tasks i).2).1 ∧
        (Base.undoDelete (Base.deleteTask tasks i).1 (Base.deleteTask tasks i).2).2 = none) ∧
    (∀ (tasks : List Variant.Task) (deletedStack : JsArray Variant.Task) (t : Variant.Task),
        tasks[i]? = some t →
        (Variant.undoDelete (Variant.deleteTask tasks deletedStack i).1
            (Variant.deleteTask tasks deletedStack i).2).1 =
          JsArray.ofList (tasks.eraseIdx i ++ [t]) ∧
        (Variant.undoDelete (Variant.deleteTask tasks deletedStack i).1
            (Variant.deleteTask tasks deletedStack i).2).1.length = tasks.length ∧
        some t ∈ (Variant.undoDelete (Variant.deleteTask tasks deletedStack i).1
            (Variant.deleteTask tasks deletedStack i).2).1 ∧
        (Variant.undoDelete (Variant.deleteTask tasks deletedStack i).1
            (Variant.deleteTask tasks deletedStack i).2).2 = deletedStack) := by
  constructor
  · intro tasks t ht
    have hi : i < tasks.length := (List.getElem?_eq_some_iff.mp ht).1
    have hu : (Base.undoDelete (Base.deleteTask tasks i).1 (Base.deleteTask tasks i).2) =
        (tasks.eraseIdx i ++ [t], none) := by
      simp [Base.deleteTask, Base.undoDelete, ht, jsFilter_ne_eq_eraseIdx]
    rw [hu]
    refine ⟨rfl, ?_, by simp, rfl⟩
    simp [List.length_eraseIdx, hi]
    omega
  · intro tasks deletedStack t ht
    have hi : i < tasks.length := (List.getElem?_eq_some_iff.mp ht).1
    have hu : (Variant.undoDelete (Variant.deleteTask tasks deletedStack i).1
        (Variant.deleteTask tasks deletedStack i).2) =
        (JsArray.ofList (tasks.eraseIdx i ++ [t]), deletedStack) := by
      simp [Variant.deleteTask, Variant.undoDelete, ht, jsFilter_ne_eq_eraseIdx,
        JsArray.ofList]
    rw [hu]
    refine ⟨rfl, ?_, by simp [JsArray.ofList], rfl⟩
    simp [JsArray.ofList, List.length_eraseIdx, hi]
    omega

/-- Instance of C3: deleting row 0 of a two-task list and undoing it. -/
theorem delete_then_undoDelete_reappends_witness :
    (Base.undoDelete (Base.deleteTask [⟨1, "a", false⟩, ⟨2, "b", true⟩] 0).1
        (Base.deleteTask [⟨1, "a", false⟩, ⟨2, "b", true⟩] 0).2).1 =
      [⟨2, "b", true⟩, ⟨1, "a", false⟩] ∧
    (Variant.undoDelete
        (Variant.deleteTask [⟨1, "a", false, .low, .work, "none", none⟩,
          ⟨2, "b", true, .low, .work, "none", none⟩] [none] 0).1
        (Variant.deleteTask [⟨1, "a", false, .low, .work, "none", none⟩,
          ⟨2, "b", true, .low, .work, "none", none⟩] [none] 0).2).1 =
      JsArray.ofList [⟨2, "b", true, .low, .work, "none", none⟩,
        ⟨1, "a", false, .low, .work, "none", none⟩] :=
  ⟨((delete_then_undoDelete_reappends 0).1 [⟨1, "a", false⟩, ⟨2, "b", true⟩] ⟨1, "a", false⟩
      rfl).1,
   ((delete_then_undoDelete_reappends 0).2 [⟨1, "a", false, .low, .work, "none", none⟩,
      ⟨2, "b", true, .low, .work, "none", none⟩] [none] ⟨1, "a", false, .low, .work, "none", none⟩
      rfl).1⟩

/-! ## Clearing completed tasks -/

/-- C5: in both builds `clearCompleted` keeps exactly the tasks with
`completed = false`, in their original order and with their multiplicity, and
removes every task with `completed = true`; when all tasks are completed the
result is the empty list. -/
theorem clearCompleted_keeps_exactly_incomplete :
    (∀ tasks : List Base.Task,
        Base.clearCompleted tasks = tasks.filter (fun t => decide (t.completed = false)) ∧
        (Base.clearCompleted tasks).Sublist tasks ∧
        (∀ t, t ∈ Base.clearCompleted tasks ↔ t ∈ tasks ∧ t.completed = false) ∧
        (∀ t, t.completed = false → (Base.clearCompleted tasks).count t = tasks.count t) ∧
        ((∀ t ∈ tasks, t.completed = true) → Base.clearCompleted tasks = [])) ∧
    (∀ tasks : List Variant.Task,
        Variant.clearCompleted tasks = tasks.filter (fun t => decide (t.completed = false)) ∧
        (Variant.clearCompleted tasks).Sublist tasks ∧
        (∀ t, t ∈ Variant.clearCompleted tasks ↔ t ∈ tasks ∧ t.completed = false) ∧
        (∀ t, t.completed = false →
          (Variant.clearCompleted tasks).count t = tasks.count t) ∧
        ((∀ t ∈ tasks, t.completed = true) → Variant.clearCompleted tasks = [])) := by
  constructor
  · intro tasks
    refine ⟨?_, List.filter_sublist tasks, ?_, ?_, ?_⟩
    · unfold Base.clearCompleted
      congr 1
      funext t
      cases t.completed <;> rfl
    · intro t
      simp [Base.clearCompleted]
    · intro t ht
      simp [Base.clearCompleted, List.count_filter, ht]
    · intro h
      simp only [Base.clearCompleted, List.filter_eq_nil_iff]
      intro t ht
      simp [h t ht]
  · intro tasks
    refine ⟨?_, List.filter_sublist tasks, ?_, ?_, ?_⟩
    · unfold Variant.clearCompleted
      congr 1
      funext t
      cases t.completed <;> rfl
    · intro t
      simp [Variant.clearCompleted]
    · intro t ht
      simp [Variant.clearCompleted, List.count_filter, ht]
    · intro h
      simp only [Variant.clearCompleted, List.filter_eq_nil_iff]
      intro t ht
      simp [h t ht]

/-- Instance of C5: a list of completed tasks only is cleared to the empty list. -/
theorem clearCompleted_keeps_exactly_incomplete_witness :
    Base.clearCompleted [⟨1, "a", true⟩, ⟨2, "b", true⟩] = [] ∧
    Variant.clearCompleted [⟨1, "a", true, .low, .work, "none", none⟩] = [] :=
  ⟨(clearCompleted_keeps_exactly_incomplete.1 [⟨1, "a", true⟩, ⟨2, "b", true⟩]).2.2.2.2
      (by decide),
   (clearCompleted_keeps_exactly_incomplete.2 [⟨1, "a", true, .low, .work, "none", none⟩]).2.2.2.2
      (by simp)⟩

/-! ## Toggling -/

/-- C6: toggling the same index twice. In the base build the whole list is the
original one again. In the variant build, for a valid index `i`, both calls
return, and the task at index `i` is the original one again, so that its
`completed` flag has its original value. -/
theorem toggleCompleted_twice (i : Nat) :
    (∀ tasks : List Base.Task,
        Base.toggleCompleted (Base.toggleCompleted tasks i) i = tasks) ∧
    (∀ (tasks : List Variant.Task) (id₁ id₂ : ℚ), i < tasks.length →
        ∃ once twice, Variant.toggleCompleted id₁ tasks i = some once ∧
          Variant.toggleCompleted id₂ once i = some twice ∧
          twice[i]? = tasks[i]? ∧
          (twice[i]?).map (·.completed) = (tasks[i]?).map (·.completed)) := by
  constructor
  · intro tasks
    unfold Base.toggleCompleted jsMap
    exact jsMapFrom_toggle_twice (fun t : Base.Task => { t with completed := !t.completed })
      (by intro t; cases t; simp) i tasks 0
  · intro tasks id₁ id₂ hi
    have key : ∀ (fresh : ℚ) (l : List Variant.Task) (t : Variant.Task), l[i]? = some t →
        ∃ r, Variant.toggleCompleted fresh l i = some r ∧
          r[i]? = some { t with completed := !t.completed } := by
      intro fresh l t hl
      have hil : i < l.length := (List.getElem?_eq_some_iff.mp hl).1
      have hupd : (jsMap (fun (t : Variant.Task) idx =>
          if idx = i then { t with completed := !t.completed } else t) l)[i]? =
          some { t with completed := !t.completed } := by
        simp [jsMap, getElem?_jsMapFrom, hl]
      have hlen : i < (jsMap (fun (t : Variant.Task) idx =>
          if idx = i then { t with completed := !t.completed } else t) l).length := by
        simpa [jsMap, length_jsMapFrom] using hil
      unfold Variant.toggleCompleted
      simp only [hupd]
      split
      · exact ⟨_, rfl, by rw [List.getElem?_append_left hlen]; exact hupd⟩
      · exact ⟨_, rfl, hupd⟩
    obtain ⟨t, ht⟩ : ∃ t, tasks[i]? = some t := ⟨tasks[i], List.getElem?_eq_getElem hi⟩
    obtain ⟨once, h1, h1i⟩ := key id₁ tasks t ht
    obtain ⟨twice, h2, h2i⟩ := key id₂ once _ h1i
    have hback : twice[i]? = tasks[i]? := by
      rw [h2i, ht]
      cases t
      simp
    exact ⟨once, twice, h1, h2, hback, by rw [hback]⟩

/-- Instance of C6: toggling row 1 twice, in the variant build on a recurring
task, whose first toggle appends a clone. -/
theorem toggleCompleted_twice_witness :
    Base.toggleCompleted (Base.toggleCompleted [⟨1, "a", false⟩, ⟨2, "b", true⟩] 1) 1 =
      [⟨1, "a", false⟩, ⟨2, "b", true⟩] ∧
    ∃ once twice,
      Variant.toggleCompleted 8 [⟨1, "a", false, .low, .work, "none", none⟩,
        ⟨2, "b", false, .low, .work, "daily", none⟩] 1 = some once ∧
      Variant.toggleCompleted 9 once 1 = some twice ∧
      twice[1]? = [(⟨1, "a", false, .low, .work, "none", none⟩ : Variant.Task),
        ⟨2, "b", false, .low, .work, "daily", none⟩][1]? ∧
      (twice[1]?).map (·.completed) =
        ([(⟨1, "a", false, .low, .work, "none", none⟩ : Variant.Task),
          ⟨2, "b", false, .low, .work, "daily", none⟩][1]?).map (·.completed) :=
  ⟨(toggleCompleted_twice 1).1 _,
   (toggleCompleted_twice 1).2 [⟨1, "a", false, .low, .work, "none", none⟩,
     ⟨2, "b", false, .low, .work, "daily", none⟩] 8 9 (by decide)⟩

/-! ## Moving a row -/

/-- C7: in the base build `moveUp(0)` and `moveDown(length - 1)` leave the task
list unchanged, for every task list, the empty one included. -/
theorem moveUp_first_moveDown_last_unchanged (tasks : List Base.Task) :
    Base.moveUp tasks 0 = JsArray.ofList tasks ∧
    Base.moveDown tasks ((tasks.length : Int) - 1) = JsArray.ofList tasks := by
  constructor
  · simp [Base.moveUp]
  · simp [Base.moveDown]

/-! ## The view projection -/

theorem includesChars_iff_infix (sub : List Char) :
    ∀ cs : List Char, includesChars cs sub = true ↔ sub <:+: cs := by
  intro cs
  induction cs with
  | nil => simp [includesChars, List.isEmpty_iff]
  | cons c cs ih =>
    simp only [includesChars, Bool.or_eq_true, ih, List.isPrefixOf_iff_prefix,
      List.infix_cons_iff]

theorem insertSorted_perm {α : Type} (cmp : α → α → ℚ) (x : α) :
    ∀ l : List α, (Variant.insertSorted cmp x l).Perm (x :: l) := by
  intro l
  induction l with
  | nil => exact List.Perm.refl _
  | cons y ys ih =>
    unfold Variant.insertSorted
    split
    · exact List.Perm.refl _
    · exact (List.Perm.cons y ih).trans (List.Perm.swap x y ys)

theorem jsSort_perm {α : Type} (cmp : α → α → ℚ) :
    ∀ l : List α, (Variant.jsSort cmp l).Perm l := by
  intro l
  induction l with
  | nil => exact List.Perm.refl _
  | cons x xs ih =>
    exact (insertSorted_perm cmp x _).trans (List.Perm.cons x ih)

theorem lowerOfChar_ofNat_ascii :
    ∀ n, n < 128 → lowerOfChar (Char.ofNat n) = [(Char.ofNat n).toLower] := by
  decide

theorem lowerOfChar_ascii (c : Char) (h : c.toNat < 128) : lowerOfChar c = [c.toLower] := by
  have h1 := lowerOfChar_ofNat_ascii c.toNat h
  rwa [Char.ofNat_toNat] at h1

theorem lowerChars_ascii :
    ∀ (cs before : List Char), (∀ c ∈ cs, c.toNat < 128) →
      lowerChars before cs = cs.map Char.toLower := by
  intro cs
  induction cs with
  | nil => intro before _; rfl
  | cons c rest ih =>
    intro before h
    have hc : c.toNat < 128 := h c (List.mem_cons_self c rest)
    have hsigma : ¬ (c.toNat = 0x3A3) := by omega
    have hrest := ih (c :: before) (fun x hx => h x (List.mem_cons_of_mem c hx))
    simp [lowerChars, hsigma, lowerOfChar_ascii c hc, hrest]

theorem jsIncludes_toLowerCase_ascii (text search : String)
    (ht : ∀ c ∈ text.data, c.toNat < 128) (hs : ∀ c ∈ search.data, c.toNat < 128) :
    jsIncludes (toLowerCase text) (toLowerCase search) = true ↔
      search.data.map Char.toLower <:+: text.data.map Char.toLower := by
  simp only [jsIncludes, toLowerCase, includesChars_iff_infix, lowerChars_ascii _ _ ht,
    lowerChars_ascii _ _ hs]

/-- C4 as stated fails: the completed task with the text ΑΣΑ (Greek capital
alpha, sigma, alpha) contains the search string ΑΣ as it stands, yet the
projection with filter `"completed"` does not return it: `toLowerCase` turns
the text into ασα and the search string, whose sigma is final, into ας. -/
theorem final_sigma_search_misses_containing_task :
    "ΑΣΑ".data.map Char.toNat = [0x391, 0x3A3, 0x391] ∧
    "ΑΣ".data.map Char.toNat = [0x391, 0x3A3] ∧
    (toLowerCase "ΑΣΑ").data.map Char.toNat = [0x3B1, 0x3C3, 0x3B1] ∧
    (toLowerCase "ΑΣ").data.map Char.toNat = [0x3B1, 0x3C2] ∧
    "ΑΣ".data <:+: "ΑΣΑ".data ∧
    toLowerCase "ΑΣΑ" = "ασα" ∧
    toLowerCase "ΑΣ" = "ας" ∧
    Variant.filteredTasks [⟨1, "ΑΣΑ", true, .medium, .general, "none", none⟩]
      "completed" "ΑΣ" = [] ∧
    Variant.sortedTasks [⟨1, "ΑΣΑ", true, .medium, .general, "none", none⟩]
      "completed" "ΑΣ" "date" = [] := by
  refine ⟨by decide, by decide, by decide, by decide, ⟨[], ['Α'], by decide⟩, by decide,
    by decide, by decide, by decide⟩

/-- C4, amended: the view projection. In the variant build `filteredTasks`
with filter `"completed"` is exactly the completed tasks `t` of the list for
which `toLowerCase(t.text)` includes `toLowerCase(search)`, with `"active"`
the incomplete ones and with `"all"` all such tasks, in list order;
`sortedTasks` is a permutation of `filteredTasks`, so that a task is displayed
if and only if it is in the list, has the status and its lower-cased text
contains the lower-cased search string. When the text and the search string
consist of ASCII characters, that is: the text contains the search string up
to the case of the letters A to Z. In the base build, which has no search,
`filteredTasks` is the tasks of the status. For
`[{"Buy milk",false},{"Pay rent",true}]` and filter `"completed"` the
projection is `["Pay rent"]` in both builds. -/
theorem view_projection_matches_lowercased :
    (∀ (tasks : List Variant.Task) (search sortBy : String),
        Variant.filteredTasks tasks "completed" search =
          tasks.filter (fun t =>
            t.completed && jsIncludes (toLowerCase t.text) (toLowerCase search)) ∧
        Variant.filteredTasks tasks "active" search =
          tasks.filter (fun t =>
            !t.completed && jsIncludes (toLowerCase t.text) (toLowerCase search)) ∧
        Variant.filteredTasks tasks "all" search =
          tasks.filter (fun t => jsIncludes (toLowerCase t.text) (toLowerCase search)) ∧
        (∀ filter, (Variant.sortedTasks tasks filter search sortBy).Perm
          (Variant.filteredTasks tasks filter search)) ∧
        (∀ t, t ∈ Variant.sortedTasks tasks "completed" search sortBy ↔
          t ∈ tasks ∧ t.completed = true ∧
            (toLowerCase search).data <:+: (toLowerCase t.text).data) ∧
        (∀ t, t ∈ Variant.sortedTasks tasks "active" search sortBy ↔
          t ∈ tasks ∧ t.completed = false ∧
            (toLowerCase search).data <:+: (toLowerCase t.text).data) ∧
        (∀ t, t ∈ Variant.sortedTasks tasks "all" search sortBy ↔
          t ∈ tasks ∧ (toLowerCase search).data <:+: (toLowerCase t.text).data) ∧
        ((∀ c ∈ search.data, c.toNat < 128) →
          ∀ t : Variant.Task, (∀ c ∈ t.text.data, c.toNat < 128) →
            (t ∈ Variant.sortedTasks tasks "completed" search sortBy ↔
              t ∈ tasks ∧ t.completed = true ∧
                search.data.map Char.toLower <:+: t.text.data.map Char.toLower) ∧
            (t ∈ Variant.sortedTasks tasks "active" search sortBy ↔
              t ∈ tasks ∧ t.completed = false ∧
                search.data.map Char.toLower <:+: t.text.data.map Char.toLower) ∧
            (t ∈ Variant.sortedTasks tasks "all" search sortBy ↔
              t ∈ tasks ∧
                search.data.map Char.toLower <:+: t.text.data.map Char.toLower))) ∧
    (∀ tasks : List Base.Task,
        Base.filteredTasks tasks "completed" = tasks.filter (fun t => t.completed) ∧
        Base.filteredTasks tasks "active" = tasks.filter (fun t => !t.completed) ∧
        Base.filteredTasks tasks "all" = tasks) ∧
    (∀ sortBy : String,
        (Variant.sortedTasks
          [⟨1, "Buy milk", false, .medium, .general, "none", none⟩,
           ⟨2, "Pay rent", true, .medium, .general, "none", none⟩]
          "completed" "" sortBy).map (·.text) = ["Pay rent"]) ∧
    (Base.filteredTasks [⟨1, "Buy milk", false⟩, ⟨2, "Pay rent", true⟩] "completed").map
      (·.text) = ["Pay rent"] := by
  refine ⟨?_, ?_, ?_, by decide⟩
  · intro tasks search sortBy
    have hc : Variant.filteredTasks tasks "completed" search =
        tasks.filter (fun t =>
          t.completed && jsIncludes (toLowerCase t.text) (toLowerCase search)) := by
      simp [Variant.filteredTasks, List.filter_filter, Bool.and_comm]
    have ha : Variant.filteredTasks tasks "active" search =
        tasks.filter (fun t =>
          !t.completed && jsIncludes (toLowerCase t.text) (toLowerCase search)) := by
      simp [Variant.filteredTasks, List.filter_filter, Bool.and_comm]
    have hall : Variant.filteredTasks tasks "all" search =
        tasks.filter (fun t => jsIncludes (toLowerCase t.text) (toLowerCase search)) := by
      simp [Variant.filteredTasks, List.filter_filter]
    have hperm : ∀ filter, (Variant.sortedTasks tasks filter search sortBy).Perm
        (Variant.filteredTasks tasks filter search) :=
      fun filter => jsSort_perm _ _
    have hmc : ∀ t, t ∈ Variant.sortedTasks tasks "completed" search sortBy ↔
        t ∈ tasks ∧ t.completed = true ∧
          jsIncludes (toLowerCase t.text) (toLowerCase search) = true := by
      intro t
      rw [(hperm "completed").mem_iff, hc]
      simp
    have hma : ∀ t, t ∈ Variant.sortedTasks tasks "active" search sortBy ↔
        t ∈ tasks ∧ t.completed = false ∧
          jsIncludes (toLowerCase t.text) (toLowerCase search) = true := by
      intro t
      rw [(hperm "active").mem_iff, ha]
      simp
    have hmall : ∀ t, t ∈ Variant.sortedTasks tasks "all" search sortBy ↔
        t ∈ tasks ∧ jsIncludes (toLowerCase t.text) (toLowerCase search) = true := by
      intro t
      rw [(hperm "all").mem_iff, hall]
      simp
    refine ⟨hc, ha, hall, hperm, ?_, ?_, ?_, ?_⟩
    · intro t
      rw [hmc t]
      simp [jsIncludes, includesChars_iff_infix]
    · intro t
      rw [hma t]
      simp [jsIncludes, includesChars_iff_infix]
    · intro t
      rw [hmall t]
      simp [jsIncludes, includesChars_iff_infix]
    · intro hs t ht
      rw [hmc t, hma t, hmall t, jsIncludes_toLowerCase_ascii t.text search ht hs]
      exact ⟨Iff.rfl, Iff.rfl, Iff.rfl⟩
  · intro tasks
    refine ⟨?_, ?_, ?_⟩ <;> simp [Base.filteredTasks]
  · intro sortBy
    have hf : Variant.filteredTasks
        [⟨1, "Buy milk", false, .medium, .general, "none", none⟩,
         ⟨2, "Pay rent", true, .medium, .general, "none", none⟩] "completed" "" =
        [⟨2, "Pay rent", true, .medium, .general, "none", none⟩] := by decide
    simp [Variant.sortedTasks, hf, Variant.jsSort, Variant.insertSorted]

/-- Instance of C4, amended: the search string `"RENT"` finds the completed
task `"Pay rent"`, whose text contains it up to the case of the letters. -/
theorem view_projection_matches_lowercased_witness :
    (∀ c ∈ "RENT".data, c.toNat < 128) ∧
    (∀ c ∈ "Pay rent".data, c.toNat < 128) ∧
    (⟨2, "Pay rent", true, .medium, .general, "none", none⟩ : Variant.Task) ∈
      Variant.sortedTasks
        [⟨1, "Buy milk", false, .medium, .general, "none", none⟩,
         ⟨2, "Pay rent", true, .medium, .general, "none", none⟩] "completed" "RENT" "date" :=
  ⟨by decide, by decide,
   ((view_projection_matches_lowercased.1
      [⟨1, "Buy milk", false, .medium, .general, "none", none⟩,
       ⟨2, "Pay rent", true, .medium, .general, "none", none⟩] "RENT" "date").2.2.2.2.2.2.2
      (by decide) ⟨2, "Pay rent", true, .medium, .general, "none", none⟩ (by decide)).1.mpr
      ⟨by simp, rfl, ⟨['p', 'a', 'y', ' '], [], by decide⟩⟩⟩

/-- C10 fails on the code: with filter `"completed"` the only displayed row of
`[{"Buy milk",false},{"Pay rent",true}]` is "Pay rent", and the handlers called
with its row index 0 toggle, delete and edit "Buy milk", the task at index 0
of the underlying list; "Pay rent" is left as it was. -/
theorem row_action_hits_underlying_index :
    Base.filteredTasks [⟨1, "Buy milk", false⟩, ⟨2, "Pay rent", true⟩] "completed" =
      [⟨2, "Pay rent", true⟩] ∧
    Base.toggleCompleted [⟨1, "Buy milk", false⟩, ⟨2, "Pay rent", true⟩] 0 =
      [⟨1, "Buy milk", true⟩, ⟨2, "Pay rent", true⟩] ∧
    Base.deleteTask [⟨1, "Buy milk", false⟩, ⟨2, "Pay rent", true⟩] 0 =
      ([⟨2, "Pay rent", true⟩], some ⟨1, "Buy milk", false⟩) ∧
    Base.editTask [⟨1, "Buy milk", false⟩, ⟨2, "Pay rent", true⟩] 0 "x" =
      [⟨1, "x", false⟩, ⟨2, "Pay rent", true⟩] ∧
    Variant.sortedTasks
        [⟨1, "Buy milk", false, .medium, .general, "none", none⟩,
         ⟨2, "Pay rent", true, .medium, .general, "none", none⟩] "completed" "" "date" =
      [⟨2, "Pay rent", true, .medium, .general, "none", none⟩] ∧
    Variant.toggleCompleted 3
        [⟨1, "Buy milk", false, .medium, .general, "none", none⟩,
         ⟨2, "Pay rent", true, .medium, .general, "none", none⟩] 0 =
      some [⟨1, "Buy milk", true, .medium, .general, "none", none⟩,
            ⟨2, "Pay rent", true, .medium, .general, "none", none⟩] ∧
    (Variant.deleteTask
        [⟨1, "Buy milk", false, .medium, .general, "none", none⟩,
         ⟨2, "Pay rent", true, .medium, .general, "none", none⟩] [] 0).1 =
      [⟨2, "Pay rent", true, .medium, .general, "none", none⟩] := by
  refine ⟨by decide, by decide, by decide, by decide, by decide, by decide, by decide⟩

/-! ## Ids along a run -/

theorem ofList_injective {α : Type} (xs ys : List α)
    (h : JsArray.ofList xs = JsArray.ofList ys) : xs = ys :=
  List.map_injective_iff.mpr (Option.some_injective α) h

theorem none_not_mem_ofList {α : Type} (xs : List α) : none ∉ JsArray.ofList xs := by
  simp [JsArray.ofList]

theorem get_natCast {α : Type} (a : JsArray α) (n : Nat) :
    JsArray.get a (n : Int) = (a[n]?).join := by
  have h : ¬ ((n : Int) < 0) := by omega
  simp [JsArray.get, h]

theorem set_natCast {α : Type} (a : JsArray α) (n : Nat) (v : Option α) :
    JsArray.set a (n : Int) v =
      if n < a.length then List.set a n v
      else a ++ List.replicate (n - a.length) none ++ [v] := by
  have h : ¬ ((n : Int) < 0) := by omega
  simp [JsArray.set, h]

theorem get_natCast_ofList {α : Type} (xs : List α) (n : Nat) :
    JsArray.get (JsArray.ofList xs) (n : Int) = xs[n]? := by
  rw [get_natCast]
  simp only [JsArray.ofList, List.getElem?_map]
  cases xs[n]? <;> rfl

theorem set_natCast_ofList {α : Type} (xs : List α) (n : Nat) (v : α) (h : n < xs.length) :
    JsArray.set (JsArray.ofList xs) (n : Int) (some v) = JsArray.ofList (xs.set n v) := by
  have hlen : (JsArray.ofList xs).length = xs.length := by simp [JsArray.ofList]
  rw [set_natCast, if_pos (by omega)]
  simp [JsArray.ofList, List.map_set]

theorem eraseIdx_append_getElem?_perm {α : Type} :
    ∀ (l : List α) (i : Nat), (l.eraseIdx i ++ (l[i]?).toList).Perm l := by
  intro l
  induction l with
  | nil => intro i; simp
  | cons x xs ih =>
    intro i
    cases i with
    | zero => simp
    | succ i => simpa using ih i

theorem set_succ_set_perm {α : Type} :
    ∀ (l : List α) (j : Nat) (x y : α), l[j]? = some x → l[j + 1]? = some y →
      ((l.set (j + 1) x).set j y).Perm l := by
  intro l
  induction l with
  | nil => intro j x y h; simp at h
  | cons a rest ih =>
    intro j x y hx hy
    cases j with
    | zero =>
      cases rest with
      | nil => simp at hy
      | cons b r =>
        simp at hx hy
        subst hx
        subst hy
        simpa using List.Perm.swap a b r
    | succ j =>
      simp only [List.getElem?_cons_succ] at hx hy
      simpa using ih j x y hx hy

theorem moveUp_values_perm (tasks : List Base.Task) (i : Nat) (ts : List Base.Task)
    (h : (Base.moveUp tasks i).values? = some ts) : ts.Perm tasks := by
  have h1 := eq_ofList_of_values? _ _ h
  cases i with
  | zero =>
    simp only [Base.moveUp, Nat.cast_zero, gt_iff_lt, lt_self_iff_false, if_false] at h1
    rw [ofList_injective _ _ h1]
  | succ n =>
    have e1 : ((n + 1 : Nat) : Int) - 1 = (n : Int) := by omega
    have hpos : ((n + 1 : Nat) : Int) > 0 := by omega
    simp only [Base.moveUp, hpos, if_true, e1, get_natCast_ofList] at h1
    by_cases hn : n + 1 < tasks.length
    · obtain ⟨x, hx⟩ : ∃ x, tasks[n]? = some x :=
        ⟨tasks[n], List.getElem?_eq_getElem (by omega)⟩
      obtain ⟨y, hy⟩ : ∃ y, tasks[n + 1]? = some y :=
        ⟨tasks[n + 1], List.getElem?_eq_getElem hn⟩
      rw [hx, hy, set_natCast_ofList _ _ _ hn,
        set_natCast_ofList _ _ _ (by simp; omega)] at h1
      rw [← ofList_injective _ _ h1]
      exact set_succ_set_perm tasks n x y hx hy
    · exfalso
      have hlen : (JsArray.ofList tasks).length = tasks.length := by simp [JsArray.ofList]
      have hup : tasks[n + 1]? = none := List.getElem?_eq_none (by omega)
      have hgrow : JsArray.set (JsArray.ofList tasks) ((n + 1 : Nat) : Int) tasks[n]? =
          JsArray.ofList tasks ++ List.replicate (n + 1 - tasks.length) none ++ [tasks[n]?] := by
        rw [set_natCast, if_neg (by omega), hlen]
      rw [hup, hgrow, set_natCast, if_pos (by simp [hlen]; omega)] at h1
      have hmem : none ∈ JsArray.ofList ts := by
        rw [← h1]
        apply List.getElem?_mem (n := n)
        apply List.getElem?_set_self
        simp [hlen]
        omega
      exact none_not_mem_ofList ts hmem

theorem moveDown_values_perm (tasks : List Base.Task) (i : Nat) (ts : List Base.Task)
    (h : (Base.moveDown tasks i).values? = some ts) : ts.Perm tasks := by
  have h1 := eq_ofList_of_values? _ _ h
  by_cases hn : i + 1 < tasks.length
  · have hg : (i : Int) < (tasks.length : Int) - 1 := by omega
    have e1 : (i : Int) + 1 = ((i + 1 : Nat) : Int) := by omega
    obtain ⟨x, hx⟩ : ∃ x, tasks[i]? = some x :=
      ⟨tasks[i], List.getElem?_eq_getElem (by omega)⟩
    obtain ⟨y, hy⟩ : ∃ y, tasks[i + 1]? = some y :=
      ⟨tasks[i + 1], List.getElem?_eq_getElem hn⟩
    simp only [Base.moveDown, hg, if_true, e1, get_natCast_ofList] at h1
    rw [hx, hy, set_natCast_ofList _ _ _ (by omega),
      set_natCast_ofList _ _ _ (by simp; omega)] at h1
    rw [← ofList_injective _ _ h1, List.set_comm _ _ _ (by omega)]
    exact set_succ_set_perm tasks i x y hx hy
  · have hg : ¬ ((i : Int) < (tasks.length : Int) - 1) := by omega
    simp only [Base.moveDown, hg, if_false] at h1
    rw [ofList_injective _ _ h1]

theorem base_step_ids (s s' : Base.State) (op : Base.Op) (h : Base.step s op = some s') :
    ((s'.tasks ++ s'.lastDeleted.toList).map (·.id)).Subperm
        ((s.tasks ++ s.lastDeleted.toList).map (·.id)) ∨
    ∃ now, op.clock? = some now ∧
      ((s'.tasks ++ s'.lastDeleted.toList).map (·.id)).Perm
        (now :: (s.tasks ++ s.lastDeleted.toList).map (·.id)) := by
  cases op with
  | add input now =>
    simp only [Base.step, Option.some.injEq] at h
    subst h
    by_cases hadd : (Base.addTask now s.tasks input).1 = s.tasks
    · left
      simp only [hadd]
      exact List.Subperm.refl _
    · right
      refine ⟨now, rfl, ?_⟩
      have hnew : (Base.addTask now s.tasks input).1 =
          s.tasks ++ [{ id := now, text := jsTrim input, completed := false }] := by
        unfold Base.addTask at hadd ⊢
        by_cases h1 : jsTrim input = ""
        · simp [h1] at hadd
        · by_cases h2 : (s.tasks.any fun task => task.text == jsTrim input) = true
          · simp [h1, h2] at hadd
          · simp [h1, h2]
      simp only [hnew, List.map_append, List.map_cons, List.map_nil, List.append_assoc,
        List.singleton_append]
      exact List.perm_middle
  | delete i =>
    simp only [Base.step, Option.some.injEq] at h
    subst h
    left
    simp only [Base.deleteTask, jsFilter_ne_eq_eraseIdx]
    have hp := (eraseIdx_append_getElem?_perm s.tasks i).map (·.id)
    exact hp.subperm.trans (List.Sublist.subperm (by simp))
  | undoDelete =>
    simp only [Base.step, Option.some.injEq] at h
    subst h
    left
    cases hl : s.lastDeleted with
    | none => simp [Base.undoDelete, hl, List.Subperm.refl]
    | some d => simp [Base.undoDelete, hl, List.Subperm.refl]
  | toggle i =>
    simp only [Base.step, Option.some.injEq] at h
    subst h
    left
    have hm : (Base.toggleCompleted s.tasks i).map (·.id) = s.tasks.map (·.id) :=
      map_jsMapFrom _ _ _ (by intro x n; split <;> rfl) s.tasks 0
    simp only [List.map_append, hm]
    exact List.Subperm.refl _
  | edit i text =>
    simp only [Base.step, Option.some.injEq] at h
    subst h
    left
    have hm : (Base.editTask s.tasks i text).map (·.id) = s.tasks.map (·.id) :=
      map_jsMapFrom _ _ _ (by intro x n; split <;> rfl) s.tasks 0
    simp only [List.map_append, hm]
    exact List.Subperm.refl _
  | moveUp i =>
    simp only [Base.step, Option.map_eq_some'] at h
    obtain ⟨ts, hts, rfl⟩ := h
    left
    have hp := moveUp_values_perm s.tasks i ts hts
    exact ((hp.append_right _).map _).subperm
  | moveDown i =>
    simp only [Base.step, Option.map_eq_some'] at h
    obtain ⟨ts, hts, rfl⟩ := h
    left
    have hp := moveDown_values_perm s.tasks i ts hts
    exact ((hp.append_right _).map _).subperm
  | clearCompleted =>
    simp only [Base.step, Option.some.injEq] at h
    subst h
    left
    apply List.Sublist.subperm
    apply List.Sublist.map
    exact List.Sublist.append (List.filter_sublist _) (List.Sublist.refl _)

theorem base_run_ids_nodup :
    ∀ (ops : List Base.Op) (s s' : Base.State), Base.run s ops = some s' →
      ((s.tasks ++ s.lastDeleted.toList).map (·.id) ++ Base.clockReadings ops).Nodup →
      ((s'.tasks ++ s'.lastDeleted.toList).map (·.id)).Nodup := by
  intro ops
  induction ops with
  | nil =>
    intro s s' h hn
    simp only [Base.run, Option.some.injEq] at h
    subst h
    simpa [Base.clockReadings] using hn
  | cons op ops ih =>
    intro s s' h hn
    simp only [Base.run, Option.bind_eq_some] at h
    obtain ⟨s1, hstep, hrun⟩ := h
    apply ih s1 s' hrun
    rcases base_step_ids s s1 op hstep with hsub | ⟨now, hnow, hperm⟩
    · have hsl : (Base.clockReadings ops).Sublist (Base.clockReadings (op :: ops)) := by
        unfold Base.clockReadings
        exact List.Sublist.filterMap _ (List.sublist_cons_self op ops)
      have hsp := ((List.subperm_append_right (Base.clockReadings ops)).mpr hsub).trans
        ((List.subperm_append_left _).mpr hsl.subperm)
      obtain ⟨l, hl, hls⟩ := hsp
      exact hl.nodup_iff.mp (hn.sublist hls)
    · have hcr : Base.clockReadings (op :: ops) = now :: Base.clockReadings ops := by
        simp [Base.clockReadings, List.filterMap_cons, hnow]
      rw [hcr] at hn
      have hp : ((s1.tasks ++ s1.lastDeleted.toList).map (·.id) ++
          Base.clockReadings ops).Perm
          ((s.tasks ++ s.lastDeleted.toList).map (·.id) ++ now :: Base.clockReadings ops) :=
        (hperm.append_right _).trans List.perm_middle.symm
      exact hp.nodup_iff.mpr hn

theorem reduceOption_ofList {α : Type} (xs : List α) :
    (JsArray.ofList xs).reduceOption = xs := by
  induction xs with
  | nil => rfl
  | cons x xs ih =>
    simp only [JsArray.ofList, List.map_cons, List.reduceOption_cons_of_some] at ih ⊢
    rw [ih]

theorem spliceStart_natCast (len n : Nat) : spliceStart len (n : Int) = min n len := by
  have h : ¬ ((n : Int) < 0) := by omega
  simp [spliceStart, h]

theorem splice_one_ofList {α : Type} (xs : List α) (src : Nat) :
    ((JsArray.ofList xs).splice (src : Int) 1 []).1.head?.join = xs[src]? ∧
    ((JsArray.ofList xs).splice (src : Int) 1 []).2 = JsArray.ofList (xs.eraseIdx src) := by
  have hlen : (JsArray.ofList xs).length = xs.length := by simp [JsArray.ofList]
  simp only [JsArray.splice, spliceStart_natCast, hlen, List.append_nil]
  by_cases h : src < xs.length
  · have h1 : min src xs.length = src := by omega
    have h2 : min 1 (xs.length - src) = 1 := by omega
    rw [h1, h2]
    constructor
    · simp only [JsArray.ofList, List.head?_take, List.head?_drop, List.getElem?_map]
      simp
      cases xs[src]? <;> rfl
    · simp [JsArray.ofList, List.eraseIdx_eq_take_drop_succ, List.map_take, List.map_drop]
  · have h1 : min src xs.length = xs.length := by omega
    have h2 : min 1 (xs.length - xs.length) = 0 := by omega
    rw [h1, h2]
    constructor
    · rw [List.getElem?_eq_none (by omega)]
      simp
    · rw [List.eraseIdx_of_length_le (by omega)]
      simp [JsArray.ofList]

theorem splice_insert_reduceOption {α : Type} (c : JsArray α) (d : Int) (v : Option α) :
    ((c.splice d 0 [v]).2).reduceOption.Perm (v.toList ++ c.reduceOption) := by
  simp only [JsArray.splice, Nat.zero_min, Nat.add_zero]
  rw [List.reduceOption_append, List.reduceOption_append]
  have hv : List.reduceOption [v] = v.toList := by cases v <;> rfl
  rw [hv]
  have hc : c.reduceOption =
      (c.take (spliceStart c.length d)).reduceOption ++
        (c.drop (spliceStart c.length d)).reduceOption := by
    rw [← List.reduceOption_append, List.take_append_drop]
  rw [hc]
  exact (List.perm_append_comm.append_right _).trans (by rw [List.append_assoc])

theorem onDragEnd_values_perm (tasks : List Variant.Task) (src : Nat) (dst : Option Nat)
    (ts : List Variant.Task)
    (h : (Variant.onDragEnd tasks src (dst.map Int.ofNat)).values? = some ts) :
    ts.Perm tasks := by
  have h1 := eq_ofList_of_values? _ _ h
  cases dst with
  | none =>
    simp only [Variant.onDragEnd, Option.map_none'] at h1
    rw [ofList_injective _ _ h1]
  | some d =>
    simp only [Variant.onDragEnd, Option.map_some'] at h1
    have hA := splice_one_ofList tasks src
    rw [hA.1, hA.2] at h1
    have hB := splice_insert_reduceOption (JsArray.ofList (tasks.eraseIdx src)) (Int.ofNat d)
      tasks[src]?
    rw [h1, reduceOption_ofList, reduceOption_ofList] at hB
    exact hB.trans (List.perm_append_comm.trans (eraseIdx_append_getElem?_perm tasks src))

theorem reduceOption_dropLast {α : Type} (stack : JsArray α) (h : stack ≠ []) :
    stack.reduceOption = stack.dropLast.reduceOption ++ (stack.getLast?.join).toList := by
  have hlast : stack.getLast? = some (stack.getLast h) := List.getLast?_eq_getLast _ h
  have hsplit : stack = stack.dropLast ++ [stack.getLast h] :=
    (List.dropLast_concat_getLast h).symm
  rw [hlast]
  conv_lhs => rw [hsplit]
  rw [List.reduceOption_append]
  cases stack.getLast h <;> rfl

theorem variant_step_keys (s s' : Variant.State) (op : Variant.Op)
    (hR : ∀ t ∈ s.tasks, t.recurrence = "none") (h : Variant.step s op = some s') :
    ((s'.tasks ++ s'.deletedStack.reduceOption).map (fun t => (t.id, t.recurrence))).Subperm
        ((s.tasks ++ s.deletedStack.reduceOption).map (fun t => (t.id, t.recurrence))) ∨
    ∃ id, op.addId? = some id ∧
      ((s'.tasks ++ s'.deletedStack.reduceOption).map (fun t => (t.id, t.recurrence))).Perm
        ((id, "none") ::
          (s.tasks ++ s.deletedStack.reduceOption).map (fun t => (t.id, t.recurrence))) := by
  cases op with
  | add input freshId priority category =>
    simp only [Variant.step, Option.some.injEq] at h
    subst h
    by_cases hadd : (Variant.addTask freshId priority category s.tasks input).1 = s.tasks
    · left
      simp only [hadd]
      exact List.Subperm.refl _
    · right
      refine ⟨freshId, rfl, ?_⟩
      have hnew : (Variant.addTask freshId priority category s.tasks input).1 =
          s.tasks ++ [{ id := freshId, text := jsTrim input, completed := false,
                        priority := priority, category := category, recurrence := "none",
                        dueDate := none }] := by
        unfold Variant.addTask at hadd ⊢
        by_cases h1 : (decide (jsTrim input = "") ||
            s.tasks.any fun t => t.text == jsTrim input) = true
        · simp [h1] at hadd
        · simp [h1]
      simp only [hnew, List.map_append, List.map_cons, List.map_nil, List.append_assoc,
        List.singleton_append]
      exact List.perm_middle
  | delete i =>
    simp only [Variant.step, Option.some.injEq] at h
    subst h
    left
    simp only [Variant.deleteTask, jsFilter_ne_eq_eraseIdx, List.reduceOption_append]
    have ho : List.reduceOption [s.tasks[i]?] = (s.tasks[i]?).toList := by
      cases s.tasks[i]? <;> rfl
    rw [ho]
    have hp := eraseIdx_append_getElem?_perm s.tasks i
    have hq : (s.tasks.eraseIdx i ++ (s.deletedStack.reduceOption ++ (s.tasks[i]?).toList)).Perm
        (s.tasks ++ s.deletedStack.reduceOption) := by
      have hc : (s.deletedStack.reduceOption ++ (s.tasks[i]?).toList).Perm
          ((s.tasks[i]?).toList ++ s.deletedStack.reduceOption) := List.perm_append_comm
      have hd := hc.append_left (s.tasks.eraseIdx i)
      rw [← List.append_assoc (s.tasks.eraseIdx i) (s.tasks[i]?).toList] at hd
      exact hd.trans (hp.append_right _)
    exact (hq.map _).subperm
  | undoDelete =>
    simp only [Variant.step, Option.map_eq_some'] at h
    obtain ⟨ts, hts, rfl⟩ := h
    left
    have h1 := eq_ofList_of_values? _ _ hts
    by_cases h0 : s.deletedStack.length = 0
    · simp only [Variant.undoDelete, h0, if_true] at h1 ⊢
      rw [← ofList_injective _ _ h1]
    · have hne : s.deletedStack ≠ [] := by
        intro hnil
        exact h0 (by simp [hnil])
      simp only [Variant.undoDelete, h0, if_false] at h1 ⊢
      have hts2 : ts = s.tasks ++ (s.deletedStack.getLast?.join).toList := by
        have := congrArg List.reduceOption h1
        rw [reduceOption_ofList, List.reduceOption_append, reduceOption_ofList] at this
        rw [← this]
        cases s.deletedStack.getLast?.join <;> rfl
      rw [hts2, reduceOption_dropLast s.deletedStack hne]
      apply List.Perm.subperm
      apply List.Perm.map
      rw [List.append_assoc]
      exact List.perm_append_comm.append_left _
  | toggle i freshId =>
    simp only [Variant.step, Option.map_eq_some'] at h
    obtain ⟨ts, hts, rfl⟩ := h
    left
    have hrec : (jsMap (fun (t : Variant.Task) idx =>
        if idx = i then { t with completed := !t.completed } else t) s.tasks).map
          (·.recurrence) = s.tasks.map (·.recurrence) :=
      map_jsMapFrom _ _ _ (by intro x n; split <;> rfl) s.tasks 0
    have hkey : (jsMap (fun (t : Variant.Task) idx =>
        if idx = i then { t with completed := !t.completed } else t) s.tasks).map
          (fun t => (t.id, t.recurrence)) = s.tasks.map (fun t => (t.id, t.recurrence)) :=
      map_jsMapFrom _ _ _ (by intro x n; split <;> rfl) s.tasks 0
    unfold Variant.toggleCompleted at hts
    cases hu : (jsMap (fun (t : Variant.Task) idx =>
        if idx = i then { t with completed := !t.completed } else t) s.tasks)[i]? with
    | none => simp [hu] at hts
    | some task =>
      have hmem : task.recurrence ∈ s.tasks.map (·.recurrence) := by
        rw [← hrec]
        exact List.mem_map_of_mem _ (List.getElem?_mem hu)
      obtain ⟨t0, ht0, hrt⟩ := List.mem_map.mp hmem
      have hnone : task.recurrence = "none" := by rw [← hrt]; exact hR t0 ht0
      simp [hu, hnone] at hts
      subst hts
      simp only [List.map_append, hkey]
      exact List.Subperm.refl _
  | edit i text =>
    simp only [Variant.step, Option.some.injEq] at h
    subst h
    left
    have hkey : (Variant.editTask s.tasks i text).map (fun t => (t.id, t.recurrence)) =
        s.tasks.map (fun t => (t.id, t.recurrence)) :=
      map_jsMapFrom _ _ _ (by intro x n; split <;> rfl) s.tasks 0
    simp only [List.map_append, hkey]
    exact List.Subperm.refl _
  | reorder source destination =>
    simp only [Variant.step, Option.map_eq_some'] at h
    obtain ⟨ts, hts, rfl⟩ := h
    left
    have hp := onDragEnd_values_perm s.tasks source destination ts hts
    exact ((hp.append_right _).map _).subperm
  | clearCompleted =>
    simp only [Variant.step, Option.some.injEq] at h
    subst h
    left
    apply List.Sublist.subperm
    apply List.Sublist.map
    exact List.Sublist.append (List.filter_sublist _) (List.Sublist.refl _)

theorem variant_run_ids_nodup :
    ∀ (ops : List Variant.Op) (s s' : Variant.State), Variant.run s ops = some s' →
      (∀ p ∈ (s.tasks ++ s.deletedStack.reduceOption).map (fun t => (t.id, t.recurrence)),
        p.2 = "none") →
      (((s.tasks ++ s.deletedStack.reduceOption).map (fun t => (t.id, t.recurrence))).map
        Prod.fst ++ Variant.addIds ops).Nodup →
      (((s'.tasks ++ s'.deletedStack.reduceOption).map (fun t => (t.id, t.recurrence))).map
        Prod.fst).Nodup := by
  intro ops
  induction ops with
  | nil =>
    intro s s' h _ hn
    simp only [Variant.run, Option.some.injEq] at h
    subst h
    simpa [Variant.addIds] using hn
  | cons op ops ih =>
    intro s s' h hR hn
    simp only [Variant.run, Option.bind_eq_some] at h
    obtain ⟨s1, hstep, hrun⟩ := h
    have hRt : ∀ t ∈ s.tasks, t.recurrence = "none" := by
      intro t ht
      exact hR (t.id, t.recurrence)
        (List.mem_map_of_mem (fun t : Variant.Task => (t.id, t.recurrence))
          (List.mem_append_left _ ht))
    rcases variant_step_keys s s1 op hRt hstep with hsub | ⟨id, hid, hperm⟩
    · apply ih s1 s' hrun
      · intro p hp
        exact hR p (hsub.subset hp)
      · have hsl : (Variant.addIds ops).Sublist (Variant.addIds (op :: ops)) := by
          unfold Variant.addIds
          exact List.Sublist.filterMap _ (List.sublist_cons_self op ops)
        have hsub1 : (((s1.tasks ++ s1.deletedStack.reduceOption).map
            (fun t => (t.id, t.recurrence))).map Prod.fst).Subperm
            (((s.tasks ++ s.deletedStack.reduceOption).map
              (fun t => (t.id, t.recurrence))).map Prod.fst) := by
          obtain ⟨l, hl, hls⟩ := hsub
          exact ⟨l.map Prod.fst, hl.map _, hls.map _⟩
        have hsp := ((List.subperm_append_right (Variant.addIds ops)).mpr hsub1).trans
          ((List.subperm_append_left _).mpr hsl.subperm)
        obtain ⟨l, hl, hls⟩ := hsp
        exact hl.nodup_iff.mp (hn.sublist hls)
    · apply ih s1 s' hrun
      · intro p hp
        rcases List.mem_cons.mp (hperm.subset hp) with hp1 | hp1
        · rw [hp1]
        · exact hR p hp1
      · have hcr : Variant.addIds (op :: ops) = id :: Variant.addIds ops := by
          simp [Variant.addIds, List.filterMap_cons, hid]
        rw [hcr] at hn
        have hp1 := hperm.map Prod.fst
        simp only [List.map_cons] at hp1
        exact ((hp1.append_right _).trans List.perm_middle.symm).nodup_iff.mpr hn

/-- C9 as stated fails: in the base build two adds that read the same clock
value give two tasks with the same id. -/
theorem equal_clock_readings_share_id :
    (Base.run Base.State.init [.add "a" 5, .add "b" 5]).map (·.tasks) =
      some [⟨5, "a", false⟩, ⟨5, "b", false⟩] ∧
    ¬ (([⟨5, "a", false⟩, ⟨5, "b", false⟩] : List Base.Task).map (·.id)).Nodup := by
  refine ⟨by decide, by decide⟩

/-- C9, amended: in every state reached from the empty list by a sequence of
add, delete, undoDelete, toggleCompleted, editTask, moveUp/moveDown (base
build) or reorder (variant build) and clearCompleted, no two tasks of the list
share an id, provided that in the base build the clock readings supplied to
the adds are pairwise distinct, and in the variant build the numbers
`Date.now() + Math.random()` computed by the adds are pairwise distinct. -/
theorem ids_unique_of_distinct_readings :
    (∀ (ops : List Base.Op) (s : Base.State), Base.run Base.State.init ops = some s →
        (Base.clockReadings ops).Nodup → (s.tasks.map (·.id)).Nodup) ∧
    (∀ (ops : List Variant.Op) (s : Variant.State),
        Variant.run Variant.State.init ops = some s →
        (Variant.addIds ops).Nodup → (s.tasks.map (·.id)).Nodup) := by
  constructor
  · intro ops s hrun hn
    have h := base_run_ids_nodup ops Base.State.init s hrun (by simpa [Base.State.init] using hn)
    rw [List.map_append] at h
    exact (List.nodup_append.mp h).1
  · intro ops s hrun hn
    have h := variant_run_ids_nodup ops Variant.State.init s hrun
      (by simp [Variant.State.init]) (by simpa [Variant.State.init] using hn)
    rw [List.map_map, List.map_append] at h
    exact (List.nodup_append.mp h).1

/-- Instance of C9, amended: a run of each build with distinct readings. -/
theorem ids_unique_of_distinct_readings_witness :
    (Base.run Base.State.init
        [.add " a " 1, .add "b" 2, .add "b" 3, .delete 0, .toggle 0, .undoDelete, .moveUp 1,
         .edit 0 "c"] =
      some { tasks := [⟨1, "c", false⟩, ⟨2, "b", true⟩], lastDeleted := none } ∧
     (Base.clockReadings
        [.add " a " 1, .add "b" 2, .add "b" 3, .delete 0, .toggle 0, .undoDelete, .moveUp 1,
         .edit 0 "c"]).Nodup ∧
     (([⟨1, "c", false⟩, ⟨2, "b", true⟩] : List Base.Task).map (·.id)).Nodup) ∧
    (Variant.run Variant.State.init
        [.add " a " 1 .high .work, .add "b" 2 .low .general, .delete 0, .toggle 0 7,
         .undoDelete, .reorder 1 (some 0), .edit 0 "c"] =
      some { tasks := [⟨1, "c", false, .high, .work, "none", none⟩,
                       ⟨2, "b", true, .low, .general, "none", none⟩],
             deletedStack := [] } ∧
     (Variant.addIds
        [.add " a " 1 .high .work, .add "b" 2 .low .general, .delete 0, .toggle 0 7,
         .undoDelete, .reorder 1 (some 0), .edit 0 "c"]).Nodup ∧
     (([⟨1, "c", false, .high, .work, "none", none⟩,
        ⟨2, "b", true, .low, .general, "none", none⟩] : List Variant.Task).map (·.id)).Nodup) :=
  ⟨⟨rfl, by decide,
    ids_unique_of_distinct_readings.1
      [.add " a " 1, .add "b" 2, .add "b" 3, .delete 0, .toggle 0, .undoDelete, .moveUp 1,
       .edit 0 "c"] _ rfl (by decide)⟩,
   ⟨rfl, by decide,
    ids_unique_of_distinct_readings.2
      [.add " a " 1 .high .work, .add "b" 2 .low .general, .delete 0, .toggle 0 7,
       .undoDelete, .reorder 1 (some 0), .edit 0 "c"] _ rfl (by decide)⟩⟩

/-! ## Indices outside the list -/

theorem moveUp_none_mem (tasks : List Base.Task) (n : Nat) (h : tasks.length ≤ n + 1) :
    none ∈ Base.moveUp tasks ((n + 1 : Nat) : Int) := by
  have e1 : ((n + 1 : Nat) : Int) - 1 = (n : Int) := by omega
  have hpos : ((n + 1 : Nat) : Int) > 0 := by omega
  have hlen : (JsArray.ofList tasks).length = tasks.length := by simp [JsArray.ofList]
  have hup : tasks[n + 1]? = none := List.getElem?_eq_none (by omega)
  have hgrow : JsArray.set (JsArray.ofList tasks) ((n + 1 : Nat) : Int) tasks[n]? =
      JsArray.ofList tasks ++ List.replicate (n + 1 - tasks.length) none ++ [tasks[n]?] := by
    rw [set_natCast, if_neg (by omega), hlen]
  simp only [Base.moveUp, hpos, if_true, e1, get_natCast_ofList]
  rw [hup, hgrow, set_natCast, if_pos (by simp [hlen]; omega)]
  apply List.getElem?_mem (n := n)
  apply List.getElem?_set_self
  simp [hlen]
  omega

theorem moveDown_neg_one_none_mem (tasks : List Base.Task) (h : tasks ≠ []) :
    none ∈ Base.moveDown tasks (-1) := by
  cases tasks with
  | nil => exact absurd rfl h
  | cons t rest =>
    have hg : (-1 : Int) < ((t :: rest).length : Int) - 1 := by
      simp only [List.length_cons]
      omega
    have hr : (-1 : Int) < (rest.length : Int) := by omega
    simp [Base.moveDown, hg, hr, JsArray.get, JsArray.set, JsArray.ofList]

theorem moveDown_of_le_neg_two (tasks : List Base.Task) (index : Int) (h : index ≤ -2) :
    Base.moveDown tasks index = JsArray.ofList tasks := by
  have h1 : index < 0 := by omega
  have h2 : index + 1 < 0 := by omega
  simp [Base.moveDown, JsArray.set, h1, h2]

theorem length_splice_insert {α : Type} (c : JsArray α) (d : Int) (v : Option α) :
    (c.splice d 0 [v]).2.length = c.length + 1 := by
  simp only [JsArray.splice, Nat.zero_min, Nat.add_zero, List.length_append, List.length_take,
    List.length_drop, List.length_singleton]
  omega

theorem spliceStart_le (len : Nat) (start : Int) : spliceStart len start ≤ len := by
  unfold spliceStart
  split <;> omega

theorem onDragEnd_same_position (tasks : List Variant.Task) (source dest : Int)
    (hs : spliceStart tasks.length source < tasks.length)
    (hd : spliceStart (tasks.length - 1) dest = spliceStart tasks.length source) :
    Variant.onDragEnd tasks source (some dest) = JsArray.ofList tasks := by
  have hlen : (JsArray.ofList tasks).length = tasks.length := by simp [JsArray.ofList]
  have hk : spliceStart tasks.length source < (JsArray.ofList tasks).length := by omega
  have hcnt : min 1 (tasks.length - spliceStart tasks.length source) = 1 := by omega
  have hcut1 : ((JsArray.ofList tasks).splice source 1 []).1 =
      [(JsArray.ofList tasks)[spliceStart tasks.length source]] := by
    simp only [JsArray.splice, hlen, hcnt]
    rw [List.drop_eq_getElem_cons hk]
    rfl
  have hcut2 : ((JsArray.ofList tasks).splice source 1 []).2 =
      (JsArray.ofList tasks).take (spliceStart tasks.length source) ++
        (JsArray.ofList tasks).drop (spliceStart tasks.length source + 1) := by
    simp only [JsArray.splice, hlen, hcnt, List.append_nil]
  have hclen : ((JsArray.ofList tasks).take (spliceStart tasks.length source) ++
      (JsArray.ofList tasks).drop (spliceStart tasks.length source + 1)).length =
      tasks.length - 1 := by
    simp only [List.length_append, List.length_take, List.length_drop, hlen]
    omega
  have hsome : ([(JsArray.ofList tasks)[spliceStart tasks.length source]].head?).join =
      (JsArray.ofList tasks)[spliceStart tasks.length source] := by
    simp only [List.head?_cons]
    rfl
  have htake : ((JsArray.ofList tasks).take (spliceStart tasks.length source)).length =
      spliceStart tasks.length source := by
    simp only [List.length_take, hlen]
    omega
  unfold Variant.onDragEnd
  simp only [hcut1, hcut2, hsome]
  simp only [JsArray.splice, hclen, hd, Nat.zero_min, Nat.add_zero]
  rw [List.take_left' htake, List.drop_left' htake, List.append_assoc, List.singleton_append,
    ← List.drop_eq_getElem_cons hk, List.take_append_drop]

theorem onDragEnd_source_at_end (tasks : List Variant.Task) (source dest : Int)
    (hs : tasks.length ≤ spliceStart tasks.length source) :
    (Variant.onDragEnd tasks source (some dest)).length = tasks.length + 1 := by
  have hlen : (JsArray.ofList tasks).length = tasks.length := by simp [JsArray.ofList]
  have hle := spliceStart_le tasks.length source
  have hcnt : min 1 (tasks.length - spliceStart tasks.length source) = 0 := by omega
  have hcut2 : ((JsArray.ofList tasks).splice source 1 []).2.length = tasks.length := by
    simp only [JsArray.splice, hlen, hcnt, List.append_nil, Nat.add_zero, List.length_append,
      List.length_take, List.length_drop]
    omega
  unfold Variant.onDragEnd
  simp only [length_splice_insert, hcut2]

/-- C8 as stated fails: `moveUp(length)` and `moveDown(-1)` leave an `undefined`
slot in the list, `onDragEnd` with a source past the end inserts an `undefined`
slot, and `onDragEnd` with a destination past the end moves the task to the
last position. -/
theorem out_of_range_index_changes_list :
    Base.moveUp [⟨1, "a", false⟩] 1 = [none, some ⟨1, "a", false⟩] ∧
    Base.moveUp [⟨1, "a", false⟩] 1 ≠ JsArray.ofList [⟨1, "a", false⟩] ∧
    Base.moveDown [⟨1, "a", false⟩, ⟨2, "b", false⟩] (-1) = [none, some ⟨2, "b", false⟩] ∧
    Base.moveDown [⟨1, "a", false⟩, ⟨2, "b", false⟩] (-1) ≠
      JsArray.ofList [⟨1, "a", false⟩, ⟨2, "b", false⟩] ∧
    Variant.onDragEnd [⟨1, "a", false, .low, .work, "none", none⟩] 1 (some 0) =
      [none, some ⟨1, "a", false, .low, .work, "none", none⟩] ∧
    Variant.onDragEnd [⟨1, "a", false, .low, .work, "none", none⟩] 1 (some 0) ≠
      JsArray.ofList [⟨1, "a", false, .low, .work, "none", none⟩] ∧
    Variant.onDragEnd [⟨1, "a", false, .low, .work, "none", none⟩,
        ⟨2, "b", false, .low, .work, "none", none⟩] 0 (some 5) =
      [some ⟨2, "b", false, .low, .work, "none", none⟩,
       some ⟨1, "a", false, .low, .work, "none", none⟩] ∧
    Variant.onDragEnd [⟨1, "a", false, .low, .work, "none", none⟩,
        ⟨2, "b", false, .low, .work, "none", none⟩] 0 (some 5) ≠
      JsArray.ofList [⟨1, "a", false, .low, .work, "none", none⟩,
        ⟨2, "b", false, .low, .work, "none", none⟩] := by
  refine ⟨by decide, by decide, by decide, by decide, by decide, by decide, by decide, by decide⟩

/-- C8, amended: indices outside `0 .. length - 1`. In the base build, for such
an index, `moveUp(index)` leaves the task list unchanged exactly when
`index ≤ 0`, and `moveDown(index)` leaves it unchanged exactly when
`index ≠ -1` or the list is empty, that is for every `index ≥ length` and every
`index ≤ -2`. In the variant build `onDragEnd` leaves the task list unchanged
when the drop has no destination, and also when `splice` clamps the source to
the position of a task and the destination to that same position; when the
source is clamped to the length of the list, a drop with a destination changes
the list, which grows by one slot. -/
theorem out_of_range_index_unchanged_cases (tasks : List Base.Task)
    (vtasks : List Variant.Task) (index : Int) :
    ((index < 0 ∨ (tasks.length : Int) ≤ index) →
        (Base.moveUp tasks index = JsArray.ofList tasks ↔ index ≤ 0)) ∧
    ((index < 0 ∨ (tasks.length : Int) ≤ index) →
        (Base.moveDown tasks index = JsArray.ofList tasks ↔ (index ≠ -1 ∨ tasks = []))) ∧
    ((tasks.length : Int) ≤ index ∨ index ≤ -2 →
        Base.moveDown tasks index = JsArray.ofList tasks) ∧
    Variant.onDragEnd vtasks index none = JsArray.ofList vtasks ∧
    (∀ dest : Int, spliceStart vtasks.length index < vtasks.length →
        spliceStart (vtasks.length - 1) dest = spliceStart vtasks.length index →
        Variant.onDragEnd vtasks index (some dest) = JsArray.ofList vtasks) ∧
    (∀ dest : Int, vtasks.length ≤ spliceStart vtasks.length index →
        Variant.onDragEnd vtasks index (some dest) ≠ JsArray.ofList vtasks ∧
        (Variant.onDragEnd vtasks index (some dest)).length = vtasks.length + 1) := by
  have hdown : (tasks.length : Int) ≤ index ∨ index ≤ -2 →
      Base.moveDown tasks index = JsArray.ofList tasks := by
    intro h
    rcases h with h | h
    · have hg : ¬ index < (tasks.length : Int) - 1 := by omega
      simp [Base.moveDown, hg]
    · exact moveDown_of_le_neg_two tasks index h
  refine ⟨?_, ?_, hdown, rfl, ?_, ?_⟩
  · intro hout
    constructor
    · intro heq
      by_contra hpos
      obtain ⟨m, rfl⟩ := Int.eq_ofNat_of_zero_le (by omega : 0 ≤ index)
      cases m with
      | zero => exact hpos (by simp)
      | succ n =>
        have hmem := moveUp_none_mem tasks n (by omega)
        have heq1 : Base.moveUp tasks ((n + 1 : Nat) : Int) = JsArray.ofList tasks := heq
        rw [heq1] at hmem
        exact none_not_mem_ofList tasks hmem
    · intro h
      have hg : ¬ index > 0 := by omega
      simp [Base.moveUp, hg]
  · intro hout
    constructor
    · intro heq
      by_contra hcon
      have hidx : index = -1 := by
        by_contra hne
        exact hcon (Or.inl hne)
      have hne : tasks ≠ [] := fun hnil => hcon (Or.inr hnil)
      have hmem := moveDown_neg_one_none_mem tasks hne
      rw [← hidx, heq] at hmem
      exact none_not_mem_ofList tasks hmem
    · intro h
      rcases h with h | h
      · apply hdown
        omega
      · subst h
        by_cases h2 : index ≤ -2
        · exact moveDown_of_le_neg_two [] index h2
        · have hg : ¬ index < -1 := by omega
          simp [Base.moveDown, hg]
  · intro dest hs hd
    exact onDragEnd_same_position vtasks index dest hs hd
  · intro dest hs
    have hl := onDragEnd_source_at_end vtasks index dest hs
    refine ⟨?_, hl⟩
    intro heq
    rw [heq] at hl
    simp [JsArray.ofList] at hl

/-- Instances of C8, amended: `moveUp(-3)`, `moveDown(4)` and `moveDown(-5)` on a
two-task list, and three drops with an index outside the list that leave the
list as it is. -/
theorem out_of_range_index_unchanged_cases_witness :
    Base.moveUp [⟨1, "a", false⟩, ⟨2, "b", false⟩] (-3) =
      JsArray.ofList [⟨1, "a", false⟩, ⟨2, "b", false⟩] ∧
    Base.moveDown [⟨1, "a", false⟩, ⟨2, "b", false⟩] 4 =
      JsArray.ofList [⟨1, "a", false⟩, ⟨2, "b", false⟩] ∧
    Base.moveDown [⟨1, "a", false⟩, ⟨2, "b", false⟩] (-5) =
      JsArray.ofList [⟨1, "a", false⟩, ⟨2, "b", false⟩] ∧
    Variant.onDragEnd [⟨1, "a", false, .low, .work, "none", none⟩,
        ⟨2, "b", false, .low, .work, "none", none⟩] 1 (some 5) =
      JsArray.ofList [⟨1, "a", false, .low, .work, "none", none⟩,
        ⟨2, "b", false, .low, .work, "none", none⟩] ∧
    Variant.onDragEnd [⟨1, "a", false, .low, .work, "none", none⟩,
        ⟨2, "b", false, .low, .work, "none", none⟩,
        ⟨3, "c", false, .low, .work, "none", none⟩] (-1) (some 2) =
      JsArray.ofList [⟨1, "a", false, .low, .work, "none", none⟩,
        ⟨2, "b", false, .low, .work, "none", none⟩,
        ⟨3, "c", false, .low, .work, "none", none⟩] ∧
    Variant.onDragEnd [⟨1, "a", false, .low, .work, "none", none⟩,
        ⟨2, "b", false, .low, .work, "none", none⟩] 0 (some (-7)) =
      JsArray.ofList [⟨1, "a", false, .low, .work, "none", none⟩,
        ⟨2, "b", false, .low, .work, "none", none⟩] ∧
    Variant.onDragEnd [⟨1, "a", false, .low, .work, "none", none⟩] 1 (some 0) ≠
      JsArray.ofList [⟨1, "a", false, .low, .work, "none", none⟩] :=
  ⟨((out_of_range_index_unchanged_cases [⟨1, "a", false⟩, ⟨2, "b", false⟩] [] (-3)).1
      (Or.inl (by decide))).mpr (by decide),
   (out_of_range_index_unchanged_cases [⟨1, "a", false⟩, ⟨2, "b", false⟩] [] 4).2.2.1
      (Or.inl (by decide)),
   ((out_of_range_index_unchanged_cases [⟨1, "a", false⟩, ⟨2, "b", false⟩] [] (-5)).2.1
      (Or.inl (by decide))).mpr (Or.inl (by decide)),
   (out_of_range_index_unchanged_cases [] [⟨1, "a", false, .low, .work, "none", none⟩,
      ⟨2, "b", false, .low, .work, "none", none⟩] 1).2.2.2.2.1 5 (by decide) (by decide),
   (out_of_range_index_unchanged_cases [] [⟨1, "a", false, .low, .work, "none", none⟩,
      ⟨2, "b", false, .low, .work, "none", none⟩,
      ⟨3, "c", false, .low, .work, "none", none⟩] (-1)).2.2.2.2.1 2 (by decide) (by decide),
   (out_of_range_index_unchanged_cases [] [⟨1, "a", false, .low, .work, "none", none⟩,
      ⟨2, "b", false, .low, .work, "none", none⟩] 0).2.2.2.2.1 (-7) (by decide) (by decide),
   ((out_of_range_index_unchanged_cases [] [⟨1, "a", false, .low, .work, "none", none⟩]
      1).2.2.2.2.2 0 (by decide)).1⟩

end TodoApp
